import Mathlib

/-!
Verification of the scenario engine of the boston-buses repository
(frontend/src/App.jsx): polyline decoding, representative route length,
frequency estimation, stop redistribution, and the stop-fetch coordinator.

Modelling conventions (shallow embedding):
- JavaScript numbers are modelled as exact rationals (`ℚ`); the engine's
  arithmetic on counts, interpolation parameters, shares and frequencies is
  plain field arithmetic, and `Number.isFinite` guards are always true in
  this model.  `Math.round` is half-up rounding (`jsRound`), `Math.floor`
  is `Int.floor`.
- The 32-bit bitwise operations of `decodePolyline` (`|`, `&`, `<<`, `>>`,
  `~` on JS Int32 values) are modelled exactly on `ℕ`/`ℤ` with explicit
  `% 2^32` wrap-around and two's-complement reinterpretation.
- `haversineDistanceMeters` computes a transcendental great-circle formula;
  it is modelled as an abstract metric parameter `haversineDistanceMeters :
  Coord → Coord → ℚ` of the functions that consume it, so every theorem
  quantifies over it.  Concrete witnesses instantiate it with `flatMetric`.
- Well-formed GeoJSON values are modelled structurally: a coordinate is a
  `(lng, lat)` pair, a Point feature always carries a coordinate pair, and
  collections are lists.  Guards of the source that reject malformed arrays
  (`Array.isArray`, `length !== 2`, null features) are therefore always
  satisfied and their `null`/`0` fallbacks are unreachable in the model.
-/

namespace BostonBuses

/-- A `[lng, lat]` coordinate pair, as pushed by `decodePolyline` and stored
in Point geometries. -/
abbrev Coord := ℚ × ℚ

/-- Geometry of a stop-collection feature: the engine only distinguishes
Point features (with their coordinates) from everything else
(`feature?.geometry?.type === 'Point'`). -/
inductive FGeom
  | point (coordinates : Coord)
  | nonPoint
deriving DecidableEq, Repr

/-- Whether a feature geometry is a Point. -/
def FGeom.isPoint : FGeom → Bool
  | .point _ => true
  | .nonPoint => false

/-- A stop feature: id, geometry and the properties the engine reads or
writes (`name`, `description`, `isSynthetic`). -/
structure Feature where
  id : String
  geom : FGeom
  name : String
  description : String
  isSynthetic : Bool
deriving DecidableEq, Repr

/-- A GeoJSON-style feature collection. -/
structure FeatureCollection where
  features : List Feature
deriving DecidableEq, Repr

/-- Route geometry as consumed by the length and sampling utilities.  Any
type other than LineString / MultiLineString falls in `other`. -/
inductive Geometry
  | lineString (coordinates : List Coord)
  | multiLineString (coordinates : List (List Coord))
  | other
deriving DecidableEq, Repr

/-- The scenario record published by the coordinator. -/
structure StopScenario where
  baseCount : ℕ
  adjustedCount : ℕ
  factor : ℚ
  baseFrequencyMinutes : Option ℚ
  adjustedFrequencyMinutes : Option ℚ
deriving DecidableEq, Repr

/-- `Math.round`: round half toward positive infinity. -/
def jsRound (q : ℚ) : ℤ := ⌊q + 1 / 2⌋

/-- Constant `SECONDS_PER_MINUTE` of App.jsx. -/
def SECONDS_PER_MINUTE : ℚ := 60

/-- Constant `MINUTES_PER_HOUR` of App.jsx. -/
def MINUTES_PER_HOUR : ℚ := 60

/-- Constant `METERS_PER_MILE` of App.jsx. -/
def METERS_PER_MILE : ℚ := 1609.34

/-- Constant `AVERAGE_BUS_SPEED_MPH` of App.jsx. -/
def AVERAGE_BUS_SPEED_MPH : ℚ := 12

/-- Constant `DWELL_TIME_PER_STOP_SECONDS` of App.jsx. -/
def DWELL_TIME_PER_STOP_SECONDS : ℚ := 30

/-- Constant `EFFECTIVE_STOP_DIRECTION_FACTOR` of App.jsx. -/
def EFFECTIVE_STOP_DIRECTION_FACTOR : ℚ := 0.5

/-- Constant `AVERAGE_ROUTE_SPAN_PER_BUS_MILES` of App.jsx. -/
def AVERAGE_ROUTE_SPAN_PER_BUS_MILES : ℚ := 1.8

/-- Constant `MAX_ADJUSTED_STOPS` of App.jsx. -/
def MAX_ADJUSTED_STOPS : ℕ := 400

/-- Constant `EMPTY_GEOJSON` of App.jsx. -/
def EMPTY_GEOJSON : FeatureCollection := ⟨[]⟩

/-- Constant `DEFAULT_STOP_SCENARIO` of App.jsx. -/
def DEFAULT_STOP_SCENARIO : StopScenario :=
  { baseCount := 0, adjustedCount := 0, factor := 1,
    baseFrequencyMinutes := none, adjustedFrequencyMinutes := none }

/-! ### decodePolyline (App.jsx lines 227-280)

The encoded string is modelled as the list of its UTF-16 char codes
(`charCodeAt`).  The accumulator `result` is a JS Int32 built with
`result |= (byte & 0x1f) << shift`; it is carried here as its unsigned
residue below `2^32` and reinterpreted as signed two's complement by
`toSigned32` when the sign/shift step runs. -/

/-- Reinterpret an unsigned 32-bit residue as a signed JS Int32. -/
def toSigned32 (u : ℕ) : ℤ := if u < 2 ^ 31 then (u : ℤ) else (u : ℤ) - 2 ^ 32

/-- One `do { byte = charCodeAt(index++) - 63; result |= (byte & 0x1f) <<
shift; shift += 5 } while (byte >= 0x20)` loop of `decodePolyline`.  Returns
`none` when the input runs out mid-chunk (the source then returns the
coordinates accumulated so far).  `(byte & 0x1f)` is the low 5 bits of the
two's-complement byte, i.e. `byte.emod 32`; `<< shift` wraps the shift count
at 32 like JS does and truncates to 32 bits. -/
def parseVarint : List ℕ → ℕ → ℕ → Option (ℕ × List ℕ)
  | [], _, _ => none
  | code :: rest, result, shift =>
      let byte : ℤ := (code : ℤ) - 63
      let chunk : ℕ := (byte.emod 32).toNat
      let result' : ℕ := Nat.lor result ((chunk <<< (shift % 32)) % 2 ^ 32)
      if 32 ≤ byte then parseVarint rest result' (shift + 5)
      else some (result', rest)

/-- The sign step `(result & 1) !== 0 ? ~(result >> 1) : result >> 1`:
`>>` is the arithmetic shift (floor division by 2 of the signed value) and
`~x = -x - 1`. -/
def zigzagDecode (u : ℕ) : ℤ :=
  let s := toSigned32 u
  if u % 2 = 1 then -(Int.fdiv s 2) - 1 else Int.fdiv s 2

/-- The outer `while (index < encoded.length)` loop of `decodePolyline`,
producing the scaled integer `(longitude, latitude)` accumulator pairs.
`fuel` bounds the iteration count; each iteration consumes at least one
char, so `fuel = codes.length` (supplied by `decodePolyline`) is enough. -/
def decodeLoopInt : ℕ → List ℕ → ℤ → ℤ → List (ℤ × ℤ)
  | 0, _, _, _ => []
  | _ + 1, [], _, _ => []
  | fuel + 1, codes, latitude, longitude =>
      match parseVarint codes 0 0 with
      | none => []
      | some (u1, rest1) =>
        let latitude' := latitude + zigzagDecode u1
        match parseVarint rest1 0 0 with
        | none => []
        | some (u2, rest2) =>
          let longitude' := longitude + zigzagDecode u2
          (longitude', latitude') ::
            decodeLoopInt fuel rest2 latitude' longitude'

/-- `decodePolyline` (App.jsx 227-280): decode a polyline-encoded char-code
sequence into `[lng, lat]` pairs at precision `1e5`.  The source divides
each accumulator by `1e5` as it pushes; equivalently the integer pair list
is mapped through that division (the `Number.isFinite` guard on the
quotients always holds). -/
def decodePolyline (codes : List ℕ) : List Coord :=
  (decodeLoopInt codes.length codes 0 0).map
    (fun p => ((p.1 : ℚ) / 100000, (p.2 : ℚ) / 100000))

/-! ### Geometry utilities (App.jsx lines 282-475) -/

/-- `calculateEstimatedFrequencyMinutes` (App.jsx 352-379).  `null` is
`none`.  The `Number.isFinite` guards on `length`, `cycleMinutes` and
`frequencyMinutes` always hold over `ℚ`; `Math.round(...) || 1` maps a zero
rounding result to 1. -/
def calculateEstimatedFrequencyMinutes (routeLengthMeters stopCount : ℚ) :
    Option ℚ :=
  let length := routeLengthMeters
  let stopsRaw := stopCount
  let effectiveStops := max 0 (stopsRaw * EFFECTIVE_STOP_DIRECTION_FACTOR)
  let speedMetersPerMinute := AVERAGE_BUS_SPEED_MPH * METERS_PER_MILE / MINUTES_PER_HOUR
  let travelMinutes := if 0 < length then length / speedMetersPerMinute else 0
  let dwellMinutes := effectiveStops * (DWELL_TIME_PER_STOP_SECONDS / SECONDS_PER_MINUTE)
  let cycleMinutes := travelMinutes + dwellMinutes
  if cycleMinutes ≤ 0 then
    if 0 < dwellMinutes then some dwellMinutes else none
  else
    let routeLengthMiles := length / METERS_PER_MILE
    let rounded := jsRound (routeLengthMiles / AVERAGE_ROUTE_SPAN_PER_BUS_MILES)
    let estimatedBusesInService : ℤ := max 1 (if rounded = 0 then 1 else rounded)
    let frequencyMinutes := cycleMinutes / (estimatedBusesInService : ℚ)
    if frequencyMinutes ≤ 0 then
      if 0 < dwellMinutes then some dwellMinutes else none
    else some frequencyMinutes

/-- `interpolateCoordinate` (App.jsx 381-392): linear interpolation with `t`
clamped to `[0, 1]` (the malformed-pair `null` branch is unreachable for
structural coordinate pairs). -/
def interpolateCoordinate (start stop : Coord) (t : ℚ) : Coord :=
  let clampedT := min (max t 0) 1
  (start.1 + (stop.1 - start.1) * clampedT,
   start.2 + (stop.2 - start.2) * clampedT)

/-- The line lists a geometry contributes to sampling (`lineStrings` in
`sampleCoordinatesAlongGeometry`). -/
def linesOf : Geometry → List (List Coord)
  | .lineString coordinates => [coordinates]
  | .multiLineString coordinates => coordinates
  | .other => []

section Metric

variable (haversineDistanceMeters : Coord → Coord → ℚ)

/-- Sum of the metric over consecutive coordinate pairs, starting from
`previous` (the `for` loop body of `calculateLineDistanceInMeters`). -/
def lineDistanceFrom : Coord → List Coord → ℚ
  | _, [] => 0
  | previous, current :: rest =>
      haversineDistanceMeters previous current +
        lineDistanceFrom current rest

/-- `calculateLineDistanceInMeters` (App.jsx 306-318): total metric length
of a coordinate list; fewer than 2 points yields 0. -/
def calculateLineDistanceInMeters : List Coord → ℚ
  | [] => 0
  | [_] => 0
  | c :: rest => lineDistanceFrom haversineDistanceMeters c rest

/-- `calculateRepresentativeRouteLengthInMeters` (App.jsx 320-350): for
`LineString` the line length; for `MultiLineString` the per-segment lengths
are computed, the non-positive ones dropped (`value > 0` filter), the rest
sorted descending (JS stable `sort((a, b) => b - a)`), and the first
`min 2` of them averaged; empty input or any other geometry type yields 0. -/
def calculateRepresentativeRouteLengthInMeters : Geometry → ℚ
  | .lineString coordinates =>
      calculateLineDistanceInMeters haversineDistanceMeters coordinates
  | .multiLineString coordinates =>
      if coordinates = [] then 0
      else
        let segmentLengths :=
          (coordinates.map
              (calculateLineDistanceInMeters haversineDistanceMeters)).filter
            (fun value => 0 < value)
        if segmentLengths = [] then 0
        else
          let sorted := segmentLengths.mergeSort (fun a b => b ≤ a)
          let sampleCount := min 2 segmentLengths.length
          (sorted.take sampleCount).sum / (sampleCount : ℚ)
  | .other => 0

/-- A positive-length straight segment of the sampling pass
(`{ start, end, length }` records of `sampleCoordinatesAlongGeometry`). -/
structure Segment where
  start : Coord
  stop : Coord
  length : ℚ
deriving DecidableEq, Repr

/-- The inner `for (let index = 1; ...)` loop of
`sampleCoordinatesAlongGeometry` over one line: consecutive pairs become
segments, keeping only those of positive metric length. -/
def lineSegments : List Coord → List Segment
  | a :: b :: rest =>
      (let length := haversineDistanceMeters a b
       if 0 < length then [⟨a, b, length⟩] else []) ++
        lineSegments (b :: rest)
  | _ => []

/-- All positive-length segments of a geometry, in listed-line order (lines
with fewer than 2 points contribute none). -/
def geometrySegments (geometry : Geometry) : List Segment :=
  (linesOf geometry).foldr
    (fun line acc => lineSegments haversineDistanceMeters line ++ acc) []

end Metric

/-- The `while (segmentIndex < segments.length - 1 && accumulated +
segments[segmentIndex].length < targetDistance)` advance of the sampling
loop.  `fuel = segments.length` bounds the advances; the guard keeps
`segmentIndex` below `segments.length - 1`, so this fuel is never
exhausted before the guard fails. -/
def advanceSegment (segments : List Segment) (targetDistance : ℚ) :
    ℕ → ℕ → ℚ → ℕ × ℚ
  | 0, segmentIndex, accumulated => (segmentIndex, accumulated)
  | fuel + 1, segmentIndex, accumulated =>
      match segments.get? segmentIndex with
      | none => (segmentIndex, accumulated)
      | some segment =>
          if segmentIndex < segments.length - 1 ∧
              accumulated + segment.length < targetDistance then
            advanceSegment segments targetDistance fuel (segmentIndex + 1)
              (accumulated + segment.length)
          else (segmentIndex, accumulated)

/-- The main `for (let index = 0; index < targetCount; ...)` sampling loop:
`remaining` counts the indices still to emit, `index` is the current one.
Each iteration advances the segment cursor, then pushes one coordinate
(the interpolated point, or the segment start when the segment has zero
length, or the last segment end when the cursor overruns). -/
def sampleLoop (segments : List Segment) (spacing : ℚ) :
    ℕ → ℕ → ℕ → ℚ → List Coord
  | 0, _, _, _ => []
  | remaining + 1, index, segmentIndex, accumulated =>
      let targetDistance := spacing * (index : ℚ)
      let advanced :=
        advanceSegment segments targetDistance segments.length segmentIndex
          accumulated
      match segments.get? advanced.1 with
      | none =>
          (segments.getLastD ⟨(0, 0), (0, 0), 0⟩).stop ::
            sampleLoop segments spacing remaining (index + 1) advanced.1
              advanced.2
      | some segment =>
          let distanceIntoSegment := targetDistance - advanced.2
          let ratio :=
            if segment.length = 0 then 0
            else distanceIntoSegment / segment.length
          interpolateCoordinate segment.start segment.stop ratio ::
            sampleLoop segments spacing remaining (index + 1) advanced.1
              advanced.2

section Metric2

variable (haversineDistanceMeters : Coord → Coord → ℚ)

/-- `sampleCoordinatesAlongGeometry` (App.jsx 394-475): `count` coordinates
evenly spaced by arc length along the geometry's concatenated segments.
`targetCount = Math.max(0, Math.floor(count))`; degenerate cases fall back
to repeating the first available point. -/
def sampleCoordinatesAlongGeometry (geometry : Geometry) (count : ℤ) :
    List Coord :=
  let targetCount := count.toNat
  if targetCount = 0 then []
  else
    let segments := geometrySegments haversineDistanceMeters geometry
    if segments = [] then
      match ((linesOf geometry).find? (fun line => !line.isEmpty)).bind
          List.head? with
      | none => []
      | some fallback => List.replicate targetCount fallback
    else
      let totalLength := (segments.map Segment.length).sum
      if totalLength ≤ 0 then
        List.replicate targetCount
          (segments.headD ⟨(0, 0), (0, 0), 0⟩).start
      else if targetCount = 1 then
        [(segments.headD ⟨(0, 0), (0, 0), 0⟩).start]
      else
        let spacing := totalLength / ((targetCount : ℚ) - 1)
        sampleLoop segments spacing targetCount 0 0 0

end Metric2

/-! ### Stop redistribution (App.jsx lines 477-682) -/

/-- `selectEvenlySpacedStops` (App.jsx 477-504): even subsampling of a
feature list.  The loop pushes `features[Math.min(Math.round(index *
interval), features.length - 1)]` for each index, skipping the (here
impossible) undefined lookup, which `filterMap` models. -/
def selectEvenlySpacedStops {α : Type} (features : List α) (targetCount : ℕ) :
    List α :=
  if features.length = 0 ∨ targetCount = 0 then []
  else if features.length ≤ targetCount then features
  else if targetCount = 1 then features.take 1
  else
    let interval : ℚ := ((features.length : ℚ) - 1) / ((targetCount : ℚ) - 1)
    (List.range targetCount).filterMap fun (index : ℕ) =>
      features.get?
        (min (jsRound ((index : ℚ) * interval)).toNat (features.length - 1))

/-- `createGeneratedStopFeature` (App.jsx 506-524).  The coordinate is
structurally a pair, so the `null` branch is unreachable; the callers
always pass a non-empty name, modelled by the `name = ""` fallback. -/
def createGeneratedStopFeature (coordinate : Coord) (index : ℕ) (name : String) :
    Feature :=
  { id := "generated-stop-" ++ toString index,
    geom := .point coordinate,
    name := if name = "" then "Proposed Stop " ++ toString (index + 1) else name,
    description := "Synthetic stop for frequency scenario testing.",
    isSynthetic := true }

/-- Wrap a coordinate list as synthetic stop features with consecutive
indices starting at `startIndex`, the way every generation loop of
`buildAdjustedStopCollection` numbers them (`baseCount +
generatedStops.length` advances by one per created feature). -/
def generateStops : List Coord → ℕ → List Feature
  | [], _ => []
  | coordinate :: rest, startIndex =>
      createGeneratedStopFeature coordinate startIndex
          ("Proposed Stop " ++ toString (startIndex + 1)) ::
        generateStops rest (startIndex + 1)

/-- Coordinates of a feature's Point geometry (`feature?.geometry?.
coordinates`); the redistribution loops only call this on Point features. -/
def Feature.coordinates : Feature → Coord
  | { geom := .point c, .. } => c
  | _ => (0, 0)

/-- Increment `allocations[index]` (`allocations[item.index] += 1`). -/
def incrementAt (allocations : List ℤ) (index : ℕ) : List ℤ :=
  allocations.set index (allocations.getD index 0 + 1)

/-- The `for (const item of sortedRemainders)` loop distributing the
leftover units to the largest fractional remainders first. -/
def distributeRemainders : List ℤ → List (ℕ × ℚ) → ℕ → List ℤ × ℕ
  | allocations, _, 0 => (allocations, 0)
  | allocations, [], remaining => (allocations, remaining)
  | allocations, (index, _) :: rest, remaining + 1 =>
      distributeRemainders (incrementAt allocations index) rest remaining

/-- The `while (remaining > 0)` round-robin loop (also used verbatim by the
`totalLength <= 0` fallback): unit `cycleIndex` gets slot `cycleIndex %
allocations.length`. -/
def roundRobinAssign (allocations : List ℤ) : ℕ → ℕ → List ℤ
  | 0, _ => allocations
  | remaining + 1, cycleIndex =>
      let target := if allocations.length ≠ 0 then cycleIndex % allocations.length else 0
      roundRobinAssign (incrementAt allocations target) remaining (cycleIndex + 1)

/-- The gap-allocation block of `buildAdjustedStopCollection` (App.jsx
578-625): proportional floor shares per segment, largest-remainder
distribution of the leftovers (JS stable sort by remainder descending),
then round-robin for anything still unassigned; when the total length is
not positive, pure round-robin. -/
def computeAllocations (segments : List Segment) (additionalNeeded : ℕ) :
    List ℤ :=
  if segments = [] then []
  else
    let totalLength := (segments.map Segment.length).sum
    if 0 < totalLength then
      let exactShares :=
        segments.map fun segment =>
          segment.length / totalLength * (additionalNeeded : ℚ)
      let floorShares : List ℤ := exactShares.map Int.floor
      let allocated := floorShares.sum
      let remainders :=
        (List.range segments.length).zip
          (exactShares.map fun share => share - (⌊share⌋ : ℚ))
      let remaining := ((additionalNeeded : ℤ) - allocated).toNat
      let sortedRemainders :=
        remainders.mergeSort (fun a b => b.2 ≤ a.2)
      let distributed :=
        distributeRemainders floorShares sortedRemainders remaining
      roundRobinAssign distributed.1 distributed.2 0
    else
      roundRobinAssign (List.replicate segments.length 0) additionalNeeded 0

/-- The `for (let step = 1; step <= allocation; step += 1)` loop placing
`allocation` synthetic stops inside one gap at ratios `step / (allocation
+ 1)`, numbering from `baseCount + generated` onward. -/
def stopsInSegment (segment : Segment) (allocation : ℕ) (nextIndex : ℕ) :
    List Feature :=
  (List.range allocation).map fun (k : ℕ) =>
    createGeneratedStopFeature
      (interpolateCoordinate segment.start segment.stop
        (((k : ℚ) + 1) / ((allocation : ℚ) + 1)))
      (nextIndex + k)
      ("Proposed Stop " ++ toString (nextIndex + k + 1))

/-- The stops one iteration of the interleaving loop generates for the
gap at the head of the aligned segment/allocation lists
(`allocations[index - 1] ?? 0` and `segments[index - 1]`; nothing when
the allocation is not positive or the segment is missing). -/
def gapNewStops (baseCount : ℕ) (segments : List Segment)
    (allocations : List ℤ) (generated : ℕ) : List Feature :=
  let allocation := allocations.headD 0
  match segments.head? with
  | some segment =>
      if 0 < allocation then
        stopsInSegment segment allocation.toNat (baseCount + generated)
      else []
  | none => []

/-- The interleaving loop of `buildAdjustedStopCollection` (App.jsx
630-656) over `baseFeatures[1..]` with the aligned gap segment and
allocation lists: before each base feature, emit the synthetic stops of
the preceding gap.  Returns the emitted features and the number of
synthetic stops generated. -/
def interleaveStops (baseCount : ℕ) :
    List Feature → List Segment → List ℤ → ℕ → List Feature × ℕ
  | [], _, _, generated => ([], generated)
  | feature :: rest, segments, allocations, generated =>
      let newStops := gapNewStops baseCount segments allocations generated
      let tailResult :=
        interleaveStops baseCount rest segments.tail allocations.tail
          (generated + newStops.length)
      (newStops ++ feature :: tailResult.1, tailResult.2)

section Metric3

variable (haversineDistanceMeters : Coord → Coord → ℚ)

/-- The gap segments between consecutive base stops (App.jsx 566-576);
base features are Point features, so the missing-coordinates `continue` is
unreachable. -/
def gapSegments : List Feature → List Segment
  | f1 :: f2 :: rest =>
      ⟨f1.coordinates, f2.coordinates,
        haversineDistanceMeters f1.coordinates f2.coordinates⟩ ::
        gapSegments (f2 :: rest)
  | _ => []

/-- `buildAdjustedStopCollection` (App.jsx 526-682): redistribute the base
Point features of `baseCollection` along `geometry` to `targetCount`
stops.  `count = Math.max(0, Math.floor(targetCount))`; `count = 0` yields
the empty collection; with no base Point features the stops are sampled
along the geometry; with `count ≤ baseCount` the base features are evenly
subsampled; otherwise synthetic stops are injected into the gaps (with a
geometry-sampling fallback when fewer than `additionalNeeded` could be
generated) and the result truncated to `count`. -/
def buildAdjustedStopCollection (baseCollection : FeatureCollection)
    (geometry : Geometry) (targetCount : ℤ) : FeatureCollection :=
  let count := targetCount.toNat
  if count = 0 then ⟨[]⟩
  else
    let baseFeatures := baseCollection.features.filter (fun f => f.geom.isPoint)
    let baseCount := baseFeatures.length
    if baseCount = 0 then
      let generatedCoordinates :=
        sampleCoordinatesAlongGeometry haversineDistanceMeters geometry
          (count : ℤ)
      ⟨(generateStops generatedCoordinates 0).take count⟩
    else if count ≤ baseCount then
      ⟨selectEvenlySpacedStops baseFeatures count⟩
    else
      let additionalNeeded := count - baseCount
      if baseCount < 2 then
        let coordinates :=
          sampleCoordinatesAlongGeometry haversineDistanceMeters geometry
            (additionalNeeded : ℤ)
        ⟨(baseFeatures ++ generateStops coordinates baseCount).take count⟩
      else
        let segments := gapSegments haversineDistanceMeters baseFeatures
        let allocations := computeAllocations segments additionalNeeded
        let interleaved :=
          interleaveStops baseCount baseFeatures.tail segments allocations 0
        let orderedFeatures :=
          baseFeatures.take 1 ++ interleaved.1
        let generatedCount := interleaved.2
        let fallbackStops :=
          if generatedCount < additionalNeeded then
            generateStops
              ((sampleCoordinatesAlongGeometry haversineDistanceMeters
                  geometry ((additionalNeeded - generatedCount : ℕ) : ℤ)).take
                (additionalNeeded - generatedCount))
              (baseCount + generatedCount)
          else []
        ⟨(orderedFeatures ++ fallbackStops).take count⟩

end Metric3

/-! ### Scenario coordinator (App.jsx lines 1044-1837)

The React component is modelled as an explicit state machine.  The refs
and state hooks that the stop-fetch logic reads or writes become fields of
`CoordState`; `selectedRouteIdRef` mirrors `selectedRouteId` (the mirror
effect at line 1733 runs before the stop-fetch effect), so a single field
serves as the live selected-route reference consulted at completion time.
A pending `Request` records the route id captured at request time and the
`cancelled` flag of the issuing effect's closure; re-running the effect
(any selection change) runs the cleanup, which sets `cancelled` on every
outstanding request.  Fetches already in flight are not aborted, only
completed or abandoned. -/

/-- An in-flight per-route stop fetch. -/
structure Request where
  requestedRouteId : String
  cancelled : Bool
deriving DecidableEq, Repr

/-- The coordinator state: the selection, the per-route cache, the
scenario outputs and the outstanding stop fetches. -/
structure CoordState where
  selectedRouteId : Option String
  selectedRouteLength : ℚ
  stopCache : List (String × FeatureCollection)
  baseStopCollection : FeatureCollection
  stopDisplayCollection : FeatureCollection
  stopScenario : StopScenario
  stopDataError : Option String
  isFetchingStops : Bool
  pending : List Request
deriving DecidableEq, Repr

/-- `resetScenario` of the stop-fetch effect (App.jsx 1745-1750). -/
def resetScenario (s : CoordState) : CoordState :=
  { s with baseStopCollection := EMPTY_GEOJSON,
           stopDisplayCollection := EMPTY_GEOJSON,
           stopScenario := DEFAULT_STOP_SCENARIO }

/-- `applyCollection` of the stop-fetch effect (App.jsx 1769-1786): store
and display the fetched base collection and publish the base scenario
(`factor` is 1 in both arms of the source's conditional). -/
def applyCollection (s : CoordState) (collection : FeatureCollection) :
    CoordState :=
  let baseCount := collection.features.length
  let baseFrequency :=
    calculateEstimatedFrequencyMinutes s.selectedRouteLength (baseCount : ℚ)
  { s with baseStopCollection := collection,
           stopDisplayCollection := collection,
           stopScenario :=
             { baseCount := baseCount, adjustedCount := baseCount,
               factor := 1, baseFrequencyMinutes := baseFrequency,
               adjustedFrequencyMinutes := baseFrequency } }

/-- Selection change (the route-click handler setting the refs and
`setSelectedRouteId`, followed by the stop-fetch effect re-run, App.jsx
1737-1837).  React bails out when the selected id does not change, so the
effect does not re-run then.  Otherwise the previous effect's cleanup
cancels its closure (all outstanding requests), and the new effect body
either resets (no selection), applies the cached collection, or issues a
fetch for the newly selected route.  `newLength` is the representative
route length the click handler stores in `selectedRouteLengthRef`. -/
def selectRoute (s : CoordState) (newId : Option String) (newLength : ℚ) :
    CoordState :=
  if newId = s.selectedRouteId then s
  else
    let s1 :=
      { s with selectedRouteId := newId, selectedRouteLength := newLength,
               pending := s.pending.map fun r => { r with cancelled := true } }
    match newId with
    | none =>
        { (resetScenario s1) with isFetchingStops := false,
                                  stopDataError := none }
    | some routeId =>
        let s2 := { s1 with stopDataError := none }
        match s2.stopCache.lookup routeId with
        | some cached =>
            { (applyCollection s2 cached) with isFetchingStops := false }
        | none =>
            { (resetScenario s2) with
                isFetchingStops := true,
                pending :=
                  s2.pending ++ [{ requestedRouteId := routeId,
                                   cancelled := false }] }

/-- Completion of a stop fetch with a result (the `.then` handler plus
`finally`, App.jsx 1800-1831): a cancelled request is dropped entirely;
otherwise the result is cached under the requested route id, and applied
to the displayed collection and scenario only when the live selected route
still equals the requested one at completion time. -/
def completeStopFetchSuccess (s : CoordState) (request : Request)
    (collection : FeatureCollection) : CoordState :=
  let s0 := { s with pending := s.pending.erase request }
  if request.cancelled then s0
  else
    let s1 :=
      { s0 with stopCache :=
          (request.requestedRouteId, collection) :: s0.stopCache }
    if s1.selectedRouteId = some request.requestedRouteId then
      { (applyCollection s1 collection) with isFetchingStops := false }
    else s1

/-- Completion of a stop fetch with an error (the `.catch` handler plus
`finally`, App.jsx 1811-1831): cancelled or stale errors are discarded;
a current one sets the route-scoped error message and resets the
scenario. -/
def completeStopFetchFailure (s : CoordState) (request : Request)
    (message : String) : CoordState :=
  let s0 := { s with pending := s.pending.erase request }
  if request.cancelled then s0
  else if s0.selectedRouteId = some request.requestedRouteId then
    { (resetScenario s0) with stopDataError := some message,
                              isFetchingStops := false }
  else s0

/-- Number of base stop features of a collection: the features whose
geometry type is Point, as counted by `buildAdjustedStopCollection` and
`adjustStopsByPercentage` (`baseFeatures.length` after the Point filter). -/
def pointCount (c : FeatureCollection) : ℕ :=
  (c.features.filter (fun f => f.geom.isPoint)).length

/-- `currentScenario.adjustedCount || baseCount || 1` of
`adjustStopsByPercentage` (JS `||` falls through on 0). -/
def currentAdjustedCountOf (scenario : StopScenario) (baseCount : ℕ) : ℕ :=
  if scenario.adjustedCount ≠ 0 then scenario.adjustedCount
  else if baseCount ≠ 0 then baseCount else 1

/-- The tie-break of `adjustStopsByPercentage`: if the rounded target
equals the current adjusted count, nudge by plus or minus 1 (by the sign
of the change), clamped at 1 and `MAX_ADJUSTED_STOPS`. -/
def nudgeTarget (currentAdjustedCount : ℕ) (change : ℚ) (t : ℤ) : ℤ :=
  if t = (currentAdjustedCount : ℤ) then
    if 0 < change ∧ t < (MAX_ADJUSTED_STOPS : ℤ) then t + 1
    else if change < 0 ∧ 1 < t then t - 1
    else t
  else t

/-- The `baseCount > 0` branch of `adjustStopsByPercentage` (App.jsx
1115-1131): bound the proposed scale factor to `[1/baseCount,
MAX_ADJUSTED_STOPS/baseCount]`, round, nudge, and publish `targetCount /
baseCount` as the next factor. -/
def adjustTargetWithBase (baseCount currentAdjustedCount : ℕ)
    (currentScenarioFactor change : ℚ) : ℤ × ℚ :=
  let currentFactor :=
    if currentScenarioFactor ≠ 0 then currentScenarioFactor
    else if (currentAdjustedCount : ℚ) / (baseCount : ℚ) ≠ 0 then
      (currentAdjustedCount : ℚ) / (baseCount : ℚ)
    else 1
  let proposedFactor := currentFactor * (1 + change)
  let minFactor := 1 / (baseCount : ℚ)
  let maxFactor := (MAX_ADJUSTED_STOPS : ℚ) / (baseCount : ℚ)
  let boundedFactor := min (max proposedFactor minFactor) maxFactor
  let t := nudgeTarget currentAdjustedCount change
    (max 1 (jsRound ((baseCount : ℚ) * boundedFactor)))
  (t, (t : ℚ) / (baseCount : ℚ))

/-- The `baseCount = 0` branch of `adjustStopsByPercentage` (App.jsx
1132-1145): operate on the raw count bounded to `[1,
MAX_ADJUSTED_STOPS]`, nudge, and keep the current factor (or 1). -/
def adjustTargetNoBase (currentAdjustedCount : ℕ)
    (currentScenarioFactor change : ℚ) : ℤ × ℚ :=
  let proposedCount := jsRound ((currentAdjustedCount : ℚ) * (1 + change))
  let t := nudgeTarget currentAdjustedCount change
    (max 1 (min (MAX_ADJUSTED_STOPS : ℤ)
      (if proposedCount = 0 then 1 else proposedCount)))
  (t, if currentScenarioFactor ≠ 0 then currentScenarioFactor else 1)

section Metric4

variable (haversineDistanceMeters : Coord → Coord → ℚ)

/-- `adjustStopsByPercentage` (App.jsx 1095-1177) on the state it reads:
the selected route's geometry (`none` makes the handler return without
effect), the cached base collection, the current scenario and the stored
route length.  Returns the published scenario and the new display
collection.  JS truthiness (`||` fallbacks on `adjustedCount`, `factor`
and the stored length) is modelled by zero tests; `??` on
`baseFrequencyMinutes` is the `Option` fallback. -/
def adjustStopsByPercentage (geometry : Option Geometry)
    (baseCollection : FeatureCollection) (currentScenario : StopScenario)
    (selectedRouteLength : ℚ) (change : ℚ) :
    Option (StopScenario × FeatureCollection) :=
  match geometry with
  | none => none
  | some g =>
    let baseCount := pointCount baseCollection
    let currentAdjustedCount : ℕ :=
      currentAdjustedCountOf currentScenario baseCount
    let maxCount := MAX_ADJUSTED_STOPS
    let step : ℤ × ℚ :=
      if 0 < baseCount then
        adjustTargetWithBase baseCount currentAdjustedCount
          currentScenario.factor change
      else
        adjustTargetNoBase currentAdjustedCount currentScenario.factor change
    let targetCount : ℤ := max 1 (min (maxCount : ℤ) step.1)
    if targetCount ≤ 0 then none
    else
      let routeLength :=
        if selectedRouteLength ≠ 0 then selectedRouteLength
        else calculateRepresentativeRouteLengthInMeters haversineDistanceMeters g
      let adjustedCollection :=
        buildAdjustedStopCollection haversineDistanceMeters baseCollection g
          targetCount
      let adjustedFrequency :=
        calculateEstimatedFrequencyMinutes routeLength (targetCount : ℚ)
      let baseFrequency :=
        match currentScenario.baseFrequencyMinutes with
        | some v => some v
        | none => calculateEstimatedFrequencyMinutes routeLength (baseCount : ℚ)
      some
        ({ baseCount := baseCount, adjustedCount := targetCount.toNat,
           factor := step.2, baseFrequencyMinutes := baseFrequency,
           adjustedFrequencyMinutes := adjustedFrequency },
         adjustedCollection)

end Metric4

/-- A concrete computable stand-in metric (taxicab distance on the plane)
used to instantiate the abstract `haversineDistanceMeters` parameter in
witnesses and counterexamples; like the haversine formula it is
nonnegative and vanishes on identical points. -/
def flatMetric (a b : Coord) : ℚ := |b.1 - a.1| + |b.2 - a.2|

/-! ### Spec-side definitions and concrete inputs used by the claims -/

/-- Total number of vertices of a geometry, over all its lines. -/
def totalVertexCount (g : Geometry) : ℕ :=
  ((linesOf g).map List.length).sum

/-- The subsampling index formula of the spec: index
`round(i * (baseCount - 1) / (targetCount - 1))`. -/
def specIndex (baseCount targetCount i : ℕ) : ℕ :=
  (jsRound ((i : ℚ) *
    (((baseCount : ℚ) - 1) / ((targetCount : ℚ) - 1)))).toNat

/-- Spec-side restatement of the representative length ("average of the
two longest per-segment line lengths among the segments of positive
length"), written with explicit maxima instead of the source's sort:
`m1` is the largest positive per-segment length and `m2` the largest of
the rest. -/
def specRepresentativeLength
    (haversineDistanceMeters : Coord → Coord → ℚ) : Geometry → ℚ
  | .lineString coordinates =>
      calculateLineDistanceInMeters haversineDistanceMeters coordinates
  | .multiLineString lines =>
      let positives :=
        (lines.map (calculateLineDistanceInMeters haversineDistanceMeters)).filter
          (fun v => 0 < v)
      if positives.length = 0 then 0
      else if positives.length = 1 then positives.headD 0
      else
        let m1 := positives.foldr max 0
        let m2 := (positives.erase m1).foldr max 0
        (m1 + m2) / 2
  | .other => 0

/-- The UTF-16 char codes of the reference polyline sample of the spec. -/
def polylineSampleCodes : List ℕ :=
  [95, 112, 126, 105, 70, 126, 112, 115, 124, 85, 95, 117, 108, 76,
   110, 110, 113, 67, 95, 109, 113, 78, 118, 120, 113, 96, 64]

/-- A placeholder feature used as the `getD` default in statements whose
indices are separately proved to be in range. -/
def blankFeature : Feature :=
  { id := "", geom := .nonPoint, name := "", description := "",
    isSynthetic := false }

/-- A concrete Point stop feature used in witnesses. -/
def samplePoint (q : ℚ) (tag : String) : Feature :=
  { id := tag, geom := .point (q, q), name := tag, description := "",
    isSynthetic := false }

/-! ### Theorems -/

/-- Claim C5: `estimateFrequencyMinutes(0, 0)` returns null, and for every
positive route length with zero stops it returns a strictly positive
number, namely the pure travel time (length over the average speed in
meters per minute) divided by the estimated buses in service, with no
dwell component. -/
theorem c5_frequency_estimator :
    calculateEstimatedFrequencyMinutes 0 0 = none ∧
    ∀ routeLengthMeters : ℚ, 0 < routeLengthMeters →
      ∃ v, calculateEstimatedFrequencyMinutes routeLengthMeters 0 = some v ∧
        0 < v ∧
        v = routeLengthMeters /
              (AVERAGE_BUS_SPEED_MPH * METERS_PER_MILE / MINUTES_PER_HOUR) /
            ((max 1 (if jsRound (routeLengthMeters / METERS_PER_MILE /
                  AVERAGE_ROUTE_SPAN_PER_BUS_MILES) = 0 then 1
                else jsRound (routeLengthMeters / METERS_PER_MILE /
                  AVERAGE_ROUTE_SPAN_PER_BUS_MILES)) : ℤ) : ℚ) := by
  constructor
  · norm_num [calculateEstimatedFrequencyMinutes]
  · intro L hL
    have hspeed : (0 : ℚ) <
        AVERAGE_BUS_SPEED_MPH * METERS_PER_MILE / MINUTES_PER_HOUR := by
      norm_num [AVERAGE_BUS_SPEED_MPH, METERS_PER_MILE, MINUTES_PER_HOUR]
    set r := jsRound (L / METERS_PER_MILE / AVERAGE_ROUTE_SPAN_PER_BUS_MILES)
      with hr
    set buses : ℤ := max 1 (if r = 0 then 1 else r) with hbuses
    have hb1 : (1 : ℤ) ≤ buses := le_max_left _ _
    have hbq : (0 : ℚ) < (buses : ℚ) := by
      have : (0 : ℤ) < buses := lt_of_lt_of_le zero_lt_one hb1
      exact_mod_cast this
    have htravel : 0 < L / (AVERAGE_BUS_SPEED_MPH * METERS_PER_MILE /
        MINUTES_PER_HOUR) := div_pos hL hspeed
    have hfreq : 0 < L / (AVERAGE_BUS_SPEED_MPH * METERS_PER_MILE /
        MINUTES_PER_HOUR) / (buses : ℚ) := div_pos htravel hbq
    refine ⟨_, ?_, hfreq, rfl⟩
    simp only [calculateEstimatedFrequencyMinutes, ← hr, ← hbuses]
    rw [if_pos hL]
    norm_num
    constructor
    · positivity
    · intro hcontra
      exact absurd hcontra (not_le.mpr hfreq)

/-- Helper: extending the input does not change the value a chunk parse
returns, it only carries the extra chars along. -/
theorem parseVarint_append (codes : List ℕ) (extra : List ℕ) :
    ∀ acc shift u rest, parseVarint codes acc shift = some (u, rest) →
      parseVarint (codes ++ extra) acc shift = some (u, rest ++ extra) := by
  induction codes with
  | nil => intro acc shift u rest h; simp [parseVarint] at h
  | cons c cs ih =>
      intro acc shift u rest h
      by_cases hc : 32 ≤ (c : ℤ) - 63
      · simp only [parseVarint, if_pos hc] at h
        simpa only [List.cons_append, parseVarint, if_pos hc] using
          ih _ _ _ _ h
      · simp only [parseVarint, if_neg hc, Option.some.injEq, Prod.mk.injEq]
          at h
        simp only [List.cons_append, parseVarint, if_neg hc,
          Option.some.injEq, Prod.mk.injEq]
        exact ⟨h.1, by simp [← h.2]⟩

/-- Helper: a successful chunk parse consumes at least one char. -/
theorem parseVarint_shrink (codes : List ℕ) :
    ∀ acc shift u rest, parseVarint codes acc shift = some (u, rest) →
      rest.length < codes.length := by
  induction codes with
  | nil => intro acc shift u rest h; simp [parseVarint] at h
  | cons c cs ih =>
      intro acc shift u rest h
      by_cases hc : 32 ≤ (c : ℤ) - 63
      · simp only [parseVarint, if_pos hc] at h
        exact Nat.lt_succ_of_lt (ih _ _ _ _ h)
      · simp only [parseVarint, if_neg hc, Option.some.injEq, Prod.mk.injEq]
          at h
        simp [← h.2]

/-- Helper: any fuel at least the input length gives the same decode. -/
theorem decodeLoopInt_fuel :
    ∀ f1 : ℕ, ∀ codes : List ℕ, ∀ f2 lat lng, codes.length ≤ f1 →
      codes.length ≤ f2 →
      decodeLoopInt f1 codes lat lng = decodeLoopInt f2 codes lat lng := by
  intro f1
  induction f1 with
  | zero =>
      intro codes f2 lat lng h1 _
      have : codes = [] := List.eq_nil_of_length_eq_zero (Nat.le_zero.mp h1)
      subst this
      cases f2 <;> simp [decodeLoopInt]
  | succ n ih =>
      intro codes f2 lat lng h1 h2
      cases codes with
      | nil => cases f2 <;> simp [decodeLoopInt]
      | cons c cs =>
          cases f2 with
          | zero => simp at h2
          | succ m =>
              simp only [decodeLoopInt]
              rcases hp1 : parseVarint (c :: cs) 0 0 with _ | ⟨u1, rest1⟩
              · simp [hp1]
              · rcases hp2 : parseVarint rest1 0 0 with _ | ⟨u2, rest2⟩
                · simp [hp1, hp2]
                · have hr1 : rest1.length < (c :: cs).length :=
                    parseVarint_shrink _ _ _ _ _ hp1
                  have hr2 : rest2.length < rest1.length :=
                    parseVarint_shrink _ _ _ _ _ hp2
                  have hn : rest2.length ≤ n := by
                    have := Nat.lt_of_lt_of_le (hr2.trans hr1) h1
                    omega
                  have hm : rest2.length ≤ m := by
                    have := Nat.lt_of_lt_of_le (hr2.trans hr1) h2
                    omega
                  simp [hp1, hp2, ih rest2 m (lat + zigzagDecode u1)
                    (lng + zigzagDecode u2) hn hm]

/-- Helper: decoding a list is a prefix of decoding any extension of it, at
the integer-accumulator level. -/
theorem decodeLoopInt_append :
    ∀ codes extra : List ℕ, ∀ lat lng, ∃ tail,
      decodeLoopInt (codes ++ extra).length (codes ++ extra) lat lng =
        decodeLoopInt codes.length codes lat lng ++ tail := by
  suffices H : ∀ n : ℕ, ∀ codes extra : List ℕ, ∀ lat lng : ℤ,
      codes.length = n → ∃ tail,
        decodeLoopInt (codes ++ extra).length (codes ++ extra) lat lng =
          decodeLoopInt codes.length codes lat lng ++ tail by
    intro codes extra lat lng
    exact H codes.length codes extra lat lng rfl
  intro n
  induction n using Nat.strong_induction_on with
  | _ n IH =>
    intro codes extra lat lng hlen
    cases codes with
    | nil =>
        exact ⟨decodeLoopInt extra.length extra lat lng,
          by simp [decodeLoopInt]⟩
    | cons c cs =>
        rcases hp1 : parseVarint (c :: cs) 0 0 with _ | ⟨u1, rest1⟩
        · refine ⟨decodeLoopInt ((c :: cs) ++ extra).length
            ((c :: cs) ++ extra) lat lng, ?_⟩
          simp [decodeLoopInt, hp1, List.length_cons]
        · rcases hp2 : parseVarint rest1 0 0 with _ | ⟨u2, rest2⟩
          · refine ⟨decodeLoopInt ((c :: cs) ++ extra).length
              ((c :: cs) ++ extra) lat lng, ?_⟩
            simp [decodeLoopInt, hp1, hp2, List.length_cons]
          · have hp1e : parseVarint (c :: (cs ++ extra)) 0 0 =
                some (u1, rest1 ++ extra) := by
              simpa using parseVarint_append (c :: cs) extra 0 0 u1 rest1 hp1
            have hp2e := parseVarint_append rest1 extra 0 0 u2 rest2 hp2
            have hr1 : rest1.length < (c :: cs).length :=
              parseVarint_shrink _ _ _ _ _ hp1
            have hr2 : rest2.length < rest1.length :=
              parseVarint_shrink _ _ _ _ _ hp2
            have hrc : rest2.length ≤ cs.length := by
              simp only [List.length_cons] at hr1; omega
            obtain ⟨tail, htail⟩ :=
              IH rest2.length (by omega) rest2 extra
                (lat + zigzagDecode u1) (lng + zigzagDecode u2) rfl
            refine ⟨tail, ?_⟩
            have hfuelL :
                decodeLoopInt (cs ++ extra).length (rest2 ++ extra)
                    (lat + zigzagDecode u1) (lng + zigzagDecode u2) =
                  decodeLoopInt (rest2 ++ extra).length (rest2 ++ extra)
                    (lat + zigzagDecode u1) (lng + zigzagDecode u2) := by
              apply decodeLoopInt_fuel
              · simp only [List.length_append]; omega
              · exact le_rfl
            have hfuelR :
                decodeLoopInt cs.length rest2
                    (lat + zigzagDecode u1) (lng + zigzagDecode u2) =
                  decodeLoopInt rest2.length rest2
                    (lat + zigzagDecode u1) (lng + zigzagDecode u2) := by
              apply decodeLoopInt_fuel
              · exact hrc
              · exact le_rfl
            show decodeLoopInt (c :: (cs ++ extra)).length
                (c :: (cs ++ extra)) lat lng =
              decodeLoopInt (c :: cs).length (c :: cs) lat lng ++ tail
            simp only [List.length_cons, decodeLoopInt, hp1, hp2, hp1e, hp2e]
            rw [hfuelL, hfuelR, htail]
            simp

/-- Witness for C5 at route length 1: the hypothesis `0 < 1` holds and the
estimator returns the positive travel-over-buses value. -/
theorem c5_witness :
    (0 : ℚ) < 1 ∧
    ∃ v, calculateEstimatedFrequencyMinutes 1 0 = some v ∧ 0 < v ∧
      v = 1 / (AVERAGE_BUS_SPEED_MPH * METERS_PER_MILE / MINUTES_PER_HOUR) /
          ((max 1 (if jsRound (1 / METERS_PER_MILE /
                AVERAGE_ROUTE_SPAN_PER_BUS_MILES) = 0 then 1
              else jsRound (1 / METERS_PER_MILE /
                AVERAGE_ROUTE_SPAN_PER_BUS_MILES)) : ℤ) : ℚ) :=
  ⟨by norm_num, c5_frequency_estimator.2 1 (by norm_num)⟩

/-- Claim C6: `decodePolyline` is total, decodes the empty string to the
empty sequence, decodes the reference sample to the documented
coordinates (exactly, hence within `1e-5`), decodes a truncated sample to
the successfully decoded pairs, and in general extending the input only
appends further pairs (so a truncated input yields the decoded prefix
rather than an error). -/
theorem c6_decode_polyline :
    decodePolyline [] = [] ∧
    decodePolyline polylineSampleCodes =
      [(-120.2, 38.5), (-120.95, 40.7), (-126.453, 43.252)] ∧
    decodePolyline (polylineSampleCodes.take 12) = [(-120.2, 38.5)] ∧
    ∀ codes extra : List ℕ, ∃ tail,
      decodePolyline (codes ++ extra) = decodePolyline codes ++ tail := by
  refine ⟨rfl, ?_, ?_, ?_⟩
  · have h : decodeLoopInt polylineSampleCodes.length polylineSampleCodes
        0 0 =
        [(-12020000, 3850000), (-12095000, 4070000), (-12645300, 4325200)] := by
      decide
    unfold decodePolyline
    rw [h]
    norm_num [Prod.ext_iff]
  · have h : decodeLoopInt (polylineSampleCodes.take 12).length
        (polylineSampleCodes.take 12) 0 0 = [(-12020000, 3850000)] := by
      decide
    unfold decodePolyline
    rw [h]
    norm_num [Prod.ext_iff]
  · intro codes extra
    obtain ⟨tail, h⟩ := decodeLoopInt_append codes extra 0 0
    refine ⟨tail.map (fun p => ((p.1 : ℚ) / 100000, (p.2 : ℚ) / 100000)), ?_⟩
    unfold decodePolyline
    rw [h]
    simp

/-- Claim C8: a completed stop fetch whose requested route differs from
the live selected route at completion time (the staleness check reads the
current state, not a value captured at request time) leaves the displayed
stop collection and the published scenario unchanged; a stale error
additionally leaves the error message unchanged. -/
theorem c8_stale_results_discarded (s : CoordState) (request : Request)
    (collection : FeatureCollection) (message : String)
    (h : s.selectedRouteId ≠ some request.requestedRouteId) :
    ((completeStopFetchSuccess s request collection).stopDisplayCollection =
        s.stopDisplayCollection ∧
      (completeStopFetchSuccess s request collection).stopScenario =
        s.stopScenario) ∧
    ((completeStopFetchFailure s request message).stopDisplayCollection =
        s.stopDisplayCollection ∧
      (completeStopFetchFailure s request message).stopScenario =
        s.stopScenario ∧
      (completeStopFetchFailure s request message).stopDataError =
        s.stopDataError) := by
  constructor
  · unfold completeStopFetchSuccess
    by_cases hc : request.cancelled
    · simp [hc]
    · simp [hc, h]
  · unfold completeStopFetchFailure
    by_cases hc : request.cancelled
    · simp [hc]
    · simp [hc, h]

/-- A concrete coordinator state for the C8 witness: route B selected
while a fetch for route A is still outstanding. -/
def c8WitnessState : CoordState :=
  { selectedRouteId := some "B", selectedRouteLength := 0, stopCache := [],
    baseStopCollection := EMPTY_GEOJSON,
    stopDisplayCollection := EMPTY_GEOJSON,
    stopScenario := DEFAULT_STOP_SCENARIO, stopDataError := none,
    isFetchingStops := true,
    pending := [{ requestedRouteId := "A", cancelled := false }] }

/-- Witness for C8: completing route A's fetch while route B is selected
changes neither the display nor the scenario (nor, on error, the error
message). -/
theorem c8_witness :
    ((completeStopFetchSuccess c8WitnessState
          ⟨"A", false⟩ EMPTY_GEOJSON).stopDisplayCollection =
        c8WitnessState.stopDisplayCollection ∧
      (completeStopFetchSuccess c8WitnessState
          ⟨"A", false⟩ EMPTY_GEOJSON).stopScenario =
        c8WitnessState.stopScenario) ∧
    ((completeStopFetchFailure c8WitnessState
          ⟨"A", false⟩ "request failed").stopDisplayCollection =
        c8WitnessState.stopDisplayCollection ∧
      (completeStopFetchFailure c8WitnessState
          ⟨"A", false⟩ "request failed").stopScenario =
        c8WitnessState.stopScenario ∧
      (completeStopFetchFailure c8WitnessState
          ⟨"A", false⟩ "request failed").stopDataError =
        c8WitnessState.stopDataError) :=
  c8_stale_results_discarded c8WitnessState ⟨"A", false⟩ EMPTY_GEOJSON
    "request failed" (by decide)

/-- The initial coordinator state (nothing selected, empty cache, no
outstanding fetches). -/
def initialCoordState : CoordState :=
  { selectedRouteId := none, selectedRouteLength := 0, stopCache := [],
    baseStopCollection := EMPTY_GEOJSON,
    stopDisplayCollection := EMPTY_GEOJSON,
    stopScenario := DEFAULT_STOP_SCENARIO, stopDataError := none,
    isFetchingStops := false, pending := [] }

/-- Counterexample to claim C9 as stated: selecting route A, then route B,
then route A again while A's first fetch is still outstanding issues a
second fetch for A — two fetches for the same route id are in flight at
once (the first is abandoned via its `cancelled` flag, not aborted), so
per-route in-flight deduplication does not hold. -/
theorem c9_counterexample :
    ((selectRoute (selectRoute (selectRoute initialCoordState (some "A") 0)
          (some "B") 0) (some "A") 0).pending.filter
        (fun r => r.requestedRouteId == "A")).length = 2 := by
  decide

/-- Claim C9 amended: deduplication happens through the completed-results
cache and React's same-selection bailout, not per in-flight request —
selecting a route whose stops are already cached issues no new fetch, and
reselecting the currently selected route leaves the state unchanged
(selecting away and back during an outstanding fetch does issue a second
fetch, per the counterexample). -/
theorem c9_amended_cache_dedup (s : CoordState) (routeId : String)
    (cached : FeatureCollection) (newLength : ℚ)
    (h : s.stopCache.lookup routeId = some cached) :
    (selectRoute s (some routeId) newLength).pending.length =
      s.pending.length ∧
    selectRoute s s.selectedRouteId newLength = s := by
  constructor
  · unfold selectRoute
    by_cases he : some routeId = s.selectedRouteId
    · simp [he]
    · simp [he, h, applyCollection]
  · unfold selectRoute
    simp

/-- A concrete coordinator state for the C9 witness: route A's stops are
already cached. -/
def c9WitnessState : CoordState :=
  { selectedRouteId := none, selectedRouteLength := 0,
    stopCache := [("A", EMPTY_GEOJSON)],
    baseStopCollection := EMPTY_GEOJSON,
    stopDisplayCollection := EMPTY_GEOJSON,
    stopScenario := DEFAULT_STOP_SCENARIO, stopDataError := none,
    isFetchingStops := false, pending := [] }

/-- Witness for the amended C9: selecting cached route A issues no fetch,
and reselecting the current selection is a no-op. -/
theorem c9_witness :
    (selectRoute c9WitnessState (some "A") 0).pending.length =
      c9WitnessState.pending.length ∧
    selectRoute c9WitnessState c9WitnessState.selectedRouteId 0 =
      c9WitnessState :=
  c9_amended_cache_dedup c9WitnessState "A" EMPTY_GEOJSON 0 (by decide)

/-- Claim C3: redistributing to exactly the base count returns the
original base (Point) features unchanged and in order, for every metric,
base collection and geometry. -/
theorem c3_idempotence (haversineDistanceMeters : Coord → Coord → ℚ)
    (base : FeatureCollection) (g : Geometry)
    (h : 1 ≤ pointCount base) :
    (buildAdjustedStopCollection haversineDistanceMeters base g
        (pointCount base : ℤ)).features =
      base.features.filter (fun f => f.geom.isPoint) := by
  unfold pointCount at *
  set bf := base.features.filter (fun f => f.geom.isPoint) with hbf
  have hn : ((bf.length : ℤ)).toNat = bf.length := Int.toNat_natCast _
  simp only [buildAdjustedStopCollection, hn]
  rw [if_neg (by omega : ¬bf.length = 0)]
  simp only [← hbf]
  rw [if_neg (by omega : ¬bf.length = 0), if_pos le_rfl]
  unfold selectEvenlySpacedStops
  rw [if_neg (by omega), if_pos le_rfl]

/-- Witness for C3 at a one-stop base collection. -/
theorem c3_witness :
    (buildAdjustedStopCollection flatMetric ⟨[samplePoint 1 "s1"]⟩
        Geometry.other (pointCount ⟨[samplePoint 1 "s1"]⟩ : ℤ)).features =
      (FeatureCollection.mk [samplePoint 1 "s1"]).features.filter
        (fun f => f.geom.isPoint) :=
  c3_idempotence flatMetric ⟨[samplePoint 1 "s1"]⟩ Geometry.other (by decide)

/-- Helper: `Math.round` is monotone. -/
theorem jsRound_mono {q r : ℚ} (h : q ≤ r) : jsRound q ≤ jsRound r :=
  Int.floor_le_floor (by linarith)

/-- Helper: `Math.round` of an integer is that integer. -/
theorem jsRound_intCast (n : ℤ) : jsRound (n : ℚ) = n := by
  rw [jsRound, Int.floor_eq_iff]
  constructor <;> norm_num

/-- Helper: a `filterMap` whose function always succeeds is a `map`. -/
theorem filterMap_eq_map_of_some {α β : Type} (l : List α) (f : α → Option β)
    (g : α → β) (h : ∀ a ∈ l, f a = some (g a)) : l.filterMap f = l.map g := by
  induction l with
  | nil => rfl
  | cons x xs ih =>
      rw [List.filterMap_cons, h x (List.mem_cons_self x xs),
        List.map_cons, ih fun a ha => h a (List.mem_cons_of_mem x ha)]

/-- The branches of `selectEvenlySpacedStops` with its `let` inlined. -/
theorem selectEvenlySpacedStops_def {α : Type} (features : List α) (t : ℕ) :
    selectEvenlySpacedStops features t =
      if features.length = 0 ∨ t = 0 then []
      else if features.length ≤ t then features
      else if t = 1 then features.take 1
      else (List.range t).filterMap fun (index : ℕ) =>
        features.get? (min (jsRound ((index : ℚ) *
          (((features.length : ℚ) - 1) / ((t : ℚ) - 1)))).toNat
          (features.length - 1)) := rfl

/-- Helper: reading a list back by indices reproduces it. -/
theorem map_range_getD (l : List Feature) :
    (List.range l.length).map (fun i => l.getD i blankFeature) = l := by
  apply List.ext_get
  · simp
  · intro i h1 h2
    simp only [List.get_map, List.get_range]
    rw [List.getD_eq_get l blankFeature h2]

/-- Claim C2: for `2 ≤ targetCount ≤ baseCount` the reduction step selects
exactly the features at indices `round(i * (baseCount-1)/(targetCount-1))`
(so identity and order are preserved); those indices are in range,
monotone, and start at the first and end at the last base feature; for
`targetCount = 1` the first feature is returned. -/
theorem c2_select_evenly_spaced (features : List Feature) (targetCount : ℕ)
    (h2 : 2 ≤ targetCount) (hle : targetCount ≤ features.length) :
    selectEvenlySpacedStops features targetCount =
      (List.range targetCount).map
        (fun i => features.getD (specIndex features.length targetCount i)
          blankFeature) ∧
    (∀ i, i < targetCount →
      specIndex features.length targetCount i < features.length) ∧
    specIndex features.length targetCount 0 = 0 ∧
    specIndex features.length targetCount (targetCount - 1) =
      features.length - 1 ∧
    (∀ i j, i ≤ j →
      specIndex features.length targetCount i ≤
        specIndex features.length targetCount j) ∧
    (∀ fs : List Feature, fs ≠ [] → selectEvenlySpacedStops fs 1 = fs.take 1) := by
  set n := features.length with hn
  set q : ℚ := ((n : ℚ) - 1) / ((targetCount : ℚ) - 1) with hqdef
  have htq : (0 : ℚ) < (targetCount : ℚ) - 1 := by
    have : (2 : ℚ) ≤ (targetCount : ℚ) := by exact_mod_cast h2
    linarith
  have hnq : (1 : ℚ) ≤ (n : ℚ) - 1 := by
    have : (2 : ℚ) ≤ (n : ℚ) := by exact_mod_cast h2.trans hle
    linarith
  have hq0 : 0 ≤ q := by positivity
  have hcast : ∀ i : ℕ, i ≤ targetCount - 1 → (i : ℚ) ≤ (targetCount : ℚ) - 1 := by
    intro i hi
    have : (i : ℚ) ≤ ((targetCount - 1 : ℕ) : ℚ) := by exact_mod_cast hi
    rwa [Nat.cast_sub (by omega), Nat.cast_one] at this
  have hbound : ∀ i : ℕ, i ≤ targetCount - 1 → (i : ℚ) * q ≤ (n : ℚ) - 1 := by
    intro i hi
    have h1 : (i : ℚ) * q ≤ ((targetCount : ℚ) - 1) * q :=
      mul_le_mul_of_nonneg_right (hcast i hi) hq0
    have h2' : ((targetCount : ℚ) - 1) * q = (n : ℚ) - 1 := by
      rw [hqdef, mul_div_cancel₀ _ (ne_of_gt htq)]
    linarith
  have hidx : ∀ i : ℕ, i ≤ targetCount - 1 →
      specIndex n targetCount i ≤ n - 1 := by
    intro i hi
    have h1 : jsRound ((i : ℚ) * q) ≤ jsRound ((n : ℚ) - 1) :=
      jsRound_mono (hbound i hi)
    have h2' : jsRound ((n : ℚ) - 1) = (n : ℤ) - 1 := by
      have : ((n : ℚ) - 1) = (((n : ℤ) - 1 : ℤ) : ℚ) := by push_cast; ring
      rw [this, jsRound_intCast]
    rw [h2'] at h1
    have h3 := Int.toNat_le_toNat h1
    unfold specIndex
    rw [← hqdef]
    omega
  have hlt : ∀ i : ℕ, i < targetCount → specIndex n targetCount i < n := by
    intro i hi
    have := hidx i (by omega)
    omega
  refine ⟨?_, hlt, ?_, ?_, ?_, ?_⟩
  · rw [selectEvenlySpacedStops_def]
    rw [if_neg (by push_neg; omega)]
    by_cases heq : n ≤ targetCount
    · have ht : targetCount = n := le_antisymm hle heq
      rw [if_pos (hn ▸ heq)]
      have hq1 : q = 1 := by
        rw [hqdef, ht, div_self (by linarith : ((n : ℚ) - 1) ≠ 0)]
      have hspec : ∀ i ∈ List.range targetCount,
          specIndex n targetCount i = i := by
        intro i _
        unfold specIndex
        rw [← hqdef, hq1, mul_one,
          show ((i : ℚ)) = ((i : ℤ) : ℚ) by push_cast; ring,
          jsRound_intCast, Int.toNat_natCast]
      rw [List.map_congr_left fun i hi => by rw [hspec i hi], ht]
      exact (map_range_getD features).symm
    · rw [if_neg (hn ▸ heq), if_neg (by omega)]
      apply filterMap_eq_map_of_some
      intro i hi
      have hiR : i < targetCount := List.mem_range.mp hi
      have hix := hlt i hiR
      have hle1 := hidx i (by omega)
      have hmin : min (specIndex n targetCount i) (n - 1) =
          specIndex n targetCount i := by omega
      show features.get? (min (specIndex n targetCount i) (n - 1)) =
        some (features.getD (specIndex n targetCount i) blankFeature)
      rw [hmin, List.get?_eq_get (hn ▸ hix),
        List.getD_eq_get features blankFeature (hn ▸ hix)]
  · unfold specIndex
    norm_num [jsRound]
  · unfold specIndex
    have h1 : ((targetCount - 1 : ℕ) : ℚ) = (targetCount : ℚ) - 1 := by
      rw [Nat.cast_sub (by omega), Nat.cast_one]
    rw [h1]
    have h2' : ((targetCount : ℚ) - 1) * q = (n : ℚ) - 1 := by
      rw [hqdef, mul_div_cancel₀ _ (ne_of_gt htq)]
    rw [h2', show ((n : ℚ) - 1) = (((n : ℤ) - 1 : ℤ) : ℚ) by push_cast; ring,
      jsRound_intCast]
    omega
  · intro i j hij
    unfold specIndex
    apply Int.toNat_le_toNat
    apply jsRound_mono
    exact mul_le_mul_of_nonneg_right (by exact_mod_cast hij) hq0
  · intro fs hfs
    unfold selectEvenlySpacedStops
    rw [if_neg (by simp [hfs, List.length_eq_zero])]
    by_cases hl : fs.length ≤ 1
    · rw [if_pos hl, List.take_of_length_le hl]
    · rw [if_neg hl, if_pos rfl]

/-- Witness for C2 at a three-feature base list and `targetCount = 2`. -/
theorem c2_witness :
    (selectEvenlySpacedStops [samplePoint 1 "a", samplePoint 2 "b",
        samplePoint 3 "c"] 2 =
      (List.range 2).map
        (fun i => [samplePoint 1 "a", samplePoint 2 "b",
            samplePoint 3 "c"].getD (specIndex 3 2 i) blankFeature)) ∧
    (∀ i, i < 2 → specIndex 3 2 i < 3) ∧
    specIndex 3 2 0 = 0 ∧
    specIndex 3 2 (2 - 1) = 3 - 1 ∧
    (∀ i j, i ≤ j → specIndex 3 2 i ≤ specIndex 3 2 j) ∧
    (∀ fs : List Feature, fs ≠ [] → selectEvenlySpacedStops fs 1 = fs.take 1) :=
  c2_select_evenly_spaced
    [samplePoint 1 "a", samplePoint 2 "b", samplePoint 3 "c"] 2
    (by norm_num) (by norm_num)

/-- Helper: an upper bound of a list that is nonnegative bounds its
`foldr max 0`. -/
theorem foldr_max_le {l : List ℚ} {a : ℚ} (ha : 0 ≤ a)
    (h : ∀ x ∈ l, x ≤ a) : l.foldr max 0 ≤ a := by
  induction l with
  | nil => simpa using ha
  | cons x xs ih =>
      simp only [List.foldr_cons]
      exact max_le (h x (by simp)) (ih fun y hy => h y (by simp [hy]))

/-- Helper: every member is below the `foldr max 0`. -/
theorem le_foldr_max {l : List ℚ} {a : ℚ} (ha : a ∈ l) :
    a ≤ l.foldr max 0 := by
  induction l with
  | nil => simp at ha
  | cons x xs ih =>
      rcases List.mem_cons.mp ha with h | h
      · subst h; exact le_max_left _ _
      · exact le_trans (ih h) (le_max_right _ _)

/-- Helper: `foldr max 0` of a list is its greatest member when that member
is nonnegative. -/
theorem foldr_max_eq {l : List ℚ} {a : ℚ} (hmem : a ∈ l)
    (hub : ∀ x ∈ l, x ≤ a) (ha : 0 ≤ a) : l.foldr max 0 = a :=
  le_antisymm (foldr_max_le ha hub) (le_foldr_max hmem)

/-- Helper: the descending merge sort used by the representative-length
computation is sorted (pairwise `≥`). -/
theorem mergeSort_ge_pairwise (l : List ℚ) :
    (l.mergeSort fun a b => b ≤ a).Pairwise (fun a b => b ≤ a) := by
  have h := @List.sorted_mergeSort ℚ (fun a b : ℚ => decide (b ≤ a))
    (fun a b c h1 h2 => by
      simp only [decide_eq_true_eq] at *
      exact le_trans h2 h1)
    (fun a b => by simpa using le_total b a) l
  simpa using h

/-- A MultiLineString whose second line is a degenerate (zero-length)
segment: the counterexample geometry for C4. -/
def c4Geometry : Geometry :=
  Geometry.multiLineString [[(1, 0), (2, 0)], [(3, 3), (3, 3)]]

/-- Counterexample to claim C4 as stated: on a MultiLineString with
per-segment line lengths 1 and 0, the code filters out the non-positive
length and returns 1, not the average `(1 + 0) / 2` of the two longest
per-segment lengths that the claim prescribes. -/
theorem c4_counterexample :
    calculateLineDistanceInMeters flatMetric [(1, 0), (2, 0)] = 1 ∧
    calculateLineDistanceInMeters flatMetric [(3, 3), (3, 3)] = 0 ∧
    calculateRepresentativeRouteLengthInMeters flatMetric c4Geometry = 1 ∧
    calculateRepresentativeRouteLengthInMeters flatMetric c4Geometry ≠
      (1 + 0) / 2 := by
  have h1 : calculateLineDistanceInMeters flatMetric [(1, 0), (2, 0)] = 1 := by
    norm_num [calculateLineDistanceInMeters, lineDistanceFrom, flatMetric]
  have h2 : calculateLineDistanceInMeters flatMetric [(3, 3), (3, 3)] = 0 := by
    norm_num [calculateLineDistanceInMeters, lineDistanceFrom, flatMetric]
  have h3 : calculateRepresentativeRouteLengthInMeters flatMetric c4Geometry
      = 1 := by
    simp [c4Geometry, calculateRepresentativeRouteLengthInMeters,
      h1, h2, List.filter, List.mergeSort_singleton]
  refine ⟨h1, h2, h3, ?_⟩
  rw [h3]
  norm_num

/-- Claim C4 amended: the representative route length of a MultiLineString
is the average of the two longest per-segment line lengths among the
segments of positive length (the single such length when only one is
positive, 0 when none is); for a LineString it is the line length and for
any other geometry 0.  Stated against the spec-side `specRepresentativeLength`
expressed with explicit maxima. -/
theorem c4_amended_representative_length
    (haversineDistanceMeters : Coord → Coord → ℚ) (g : Geometry) :
    calculateRepresentativeRouteLengthInMeters haversineDistanceMeters g =
      specRepresentativeLength haversineDistanceMeters g := by
  cases g with
  | lineString coordinates => rfl
  | other => rfl
  | multiLineString lines =>
      by_cases hl : lines = []
      · subst hl
        simp [calculateRepresentativeRouteLengthInMeters,
          specRepresentativeLength]
      · simp only [calculateRepresentativeRouteLengthInMeters,
          specRepresentativeLength]
        rw [if_neg hl]
        set L := (lines.map
            (calculateLineDistanceInMeters haversineDistanceMeters)).filter
          (fun v => 0 < v) with hLdef
        have hall : ∀ x ∈ L, 0 < x := by
          intro x hx
          have := (List.mem_filter.mp hx).2
          simpa using this
        by_cases hL0 : L = []
        · rw [if_pos hL0, hL0]
          simp
        · rw [if_neg hL0]
          rcases Nat.lt_or_ge L.length 2 with hsmall | hbig
          · have hone : L.length = 1 := by
              have := List.length_pos.mpr hL0
              omega
            obtain ⟨a, ha⟩ := List.length_eq_one.mp hone
            rw [ha]
            rw [List.mergeSort_singleton]
            norm_num
          · set s := L.mergeSort (fun a b => b ≤ a) with hs
            have hperm : s.Perm L := List.mergeSort_perm L _
            have hpair : s.Pairwise (fun a b => b ≤ a) :=
              mergeSort_ge_pairwise L
            have hslen : s.length = L.length := hperm.length_eq
            match hsval : s with
            | [] => simp at hslen; omega
            | [a] => simp at hslen; omega
            | a :: b :: rest =>
              have hamem : a ∈ L := hperm.mem_iff.mp (by simp)
              have hub : ∀ x ∈ L, x ≤ a := by
                intro x hx
                have hxs : x ∈ a :: b :: rest := hperm.mem_iff.mpr hx
                rcases List.mem_cons.mp hxs with h | h
                · exact le_of_eq h
                · exact (List.pairwise_cons.mp hpair).1 x h
              have hm1 : L.foldr max 0 = a :=
                foldr_max_eq hamem hub (le_of_lt (hall a hamem))
              have herase : (L.erase a).Perm (b :: rest) := by
                have h := List.Perm.erase a hperm.symm
                rwa [List.erase_cons_head] at h
              have hbmem : b ∈ L.erase a := herase.mem_iff.mpr (by simp)
              have hbL : b ∈ L := hperm.mem_iff.mp (by simp)
              have htail : (b :: rest).Pairwise (fun x y => y ≤ x) :=
                (List.pairwise_cons.mp hpair).2
              have hub2 : ∀ x ∈ L.erase a, x ≤ b := by
                intro x hx
                have hxs : x ∈ b :: rest := herase.mem_iff.mp hx
                rcases List.mem_cons.mp hxs with h | h
                · exact le_of_eq h
                · exact (List.pairwise_cons.mp htail).1 x h
              have hm2 : (L.erase a).foldr max 0 = b :=
                foldr_max_eq hbmem hub2 (le_of_lt (hall b hbL))
              rw [if_neg (by omega), if_neg (by omega)]
              rw [hm1, hm2]
              have hmin : min 2 L.length = 2 := min_eq_left hbig
              rw [hmin]
              norm_num [List.take]

/-- Helper: wrapping coordinates yields one feature per coordinate. -/
theorem generateStops_length (coords : List Coord) :
    ∀ k, (generateStops coords k).length = coords.length := by
  induction coords with
  | nil => intro k; rfl
  | cons c rest ih => intro k; simp [generateStops, ih]

/-- Helper: a `filterMap` that always succeeds preserves the length. -/
theorem filterMap_length_of_isSome {α β : Type} (l : List α)
    (f : α → Option β) (h : ∀ a ∈ l, (f a).isSome) :
    (l.filterMap f).length = l.length := by
  induction l with
  | nil => rfl
  | cons x xs ih =>
      rcases hfx : f x with _ | b
      · exact absurd (hfx ▸ h x (List.mem_cons_self x xs)) (by simp)
      · rw [List.filterMap_cons, hfx, List.length_cons, List.length_cons,
          ih fun a ha => h a (List.mem_cons_of_mem x ha)]

/-- Helper: the main sampling loop emits exactly one coordinate per
remaining index. -/
theorem sampleLoop_length (segments : List Segment) (spacing : ℚ) :
    ∀ remaining index segmentIndex accumulated,
      (sampleLoop segments spacing remaining index segmentIndex
        accumulated).length = remaining := by
  intro remaining
  induction remaining with
  | zero => intro i si acc; rfl
  | succ r ih =>
      intro i si acc
      simp only [sampleLoop]
      rcases hseg : segments.get? (advanceSegment segments (spacing * (i : ℚ))
          segments.length si acc).1 with _ | seg
      · simp [ih]
      · simp [ih]

/-- Helper: a geometry with two or more total vertices has a non-empty
line. -/
theorem exists_nonempty_line_of_vertices {g : Geometry}
    (hg : 2 ≤ totalVertexCount g) : ∃ line ∈ linesOf g, line ≠ [] := by
  unfold totalVertexCount at hg
  by_contra hc
  push_neg at hc
  have : ((linesOf g).map List.length).sum = 0 := by
    apply List.sum_eq_zero
    intro x hx
    obtain ⟨line, hline, rfl⟩ := List.mem_map.mp hx
    rw [hc line hline]
    rfl
  omega

/-- Helper: the sampler returns exactly `count.toNat` coordinates whenever
the geometry has a non-empty line. -/
theorem sampleCoordinatesAlongGeometry_length
    (haversineDistanceMeters : Coord → Coord → ℚ) (g : Geometry)
    (count : ℤ) (hg : ∃ line ∈ linesOf g, line ≠ []) :
    (sampleCoordinatesAlongGeometry haversineDistanceMeters g count).length =
      count.toNat := by
  obtain ⟨line, hline, hne⟩ := hg
  unfold sampleCoordinatesAlongGeometry
  by_cases h0 : count.toNat = 0
  · rw [if_pos h0, h0]
    rfl
  · rw [if_neg h0]
    set segments := geometrySegments haversineDistanceMeters g with hsegs
    by_cases hs : segments = []
    · rw [if_pos hs]
      have hfind : ∃ l, (linesOf g).find? (fun l => !l.isEmpty) = some l := by
        have : ((linesOf g).find? (fun l => !l.isEmpty)).isSome := by
          rw [List.find?_isSome]
          exact ⟨line, hline, by simpa using hne⟩
        exact Option.isSome_iff_exists.mp this
      obtain ⟨l, hl⟩ := hfind
      have hlne : l ≠ [] := by
        have := List.find?_some hl
        simpa using this
      obtain ⟨c, cs, rfl⟩ := List.exists_cons_of_ne_nil hlne
      rw [hl]
      simp
    · rw [if_neg hs]
      by_cases ht : (segments.map Segment.length).sum ≤ 0
      · rw [if_pos ht]
        simp
      · rw [if_neg ht]
        by_cases h1 : count.toNat = 1
        · rw [if_pos h1, h1]
          rfl
        · rw [if_neg h1]
          exact sampleLoop_length _ _ _ _ _ _

/-- Helper: subsampling to at most the base count returns exactly the
requested number of features. -/
theorem selectEvenlySpacedStops_length {α : Type} (features : List α)
    (t : ℕ) (h : t ≤ features.length) :
    (selectEvenlySpacedStops features t).length = t := by
  rw [selectEvenlySpacedStops_def]
  by_cases h0 : features.length = 0 ∨ t = 0
  · rw [if_pos h0]
    simp only [List.length_nil]
    omega
  · push_neg at h0
    rw [if_neg (by push_neg; exact h0)]
    by_cases hfull : features.length ≤ t
    · rw [if_pos hfull]
      omega
    · rw [if_neg hfull]
      by_cases ht1 : t = 1
      · rw [if_pos ht1, List.length_take, ht1]
        omega
      · rw [if_neg ht1]
        rw [filterMap_length_of_isSome, List.length_range]
        intro i _
        have hidx : min (jsRound ((i : ℚ) *
            (((features.length : ℚ) - 1) / ((t : ℚ) - 1)))).toNat
            (features.length - 1) < features.length := by omega
        rw [List.get?_eq_get hidx]
        rfl

/-- Helper: the interleaving loop emits every base feature plus the
synthetic stops it generates, and the generation counter only grows. -/
theorem interleaveStops_spec (baseCount : ℕ) :
    ∀ (fs : List Feature) (segs : List Segment) (allocs : List ℤ) (gen : ℕ),
      gen ≤ (interleaveStops baseCount fs segs allocs gen).2 ∧
      (interleaveStops baseCount fs segs allocs gen).1.length =
        fs.length + ((interleaveStops baseCount fs segs allocs gen).2 - gen) := by
  intro fs
  induction fs with
  | nil => intro segs allocs gen; simp [interleaveStops]
  | cons f rest ih =>
      intro segs allocs gen
      simp only [interleaveStops]
      set ns := gapNewStops baseCount segs allocs gen with hns
      obtain ⟨ih1, ih2⟩ := ih segs.tail allocs.tail (gen + ns.length)
      constructor
      · omega
      · simp only [List.length_append, List.length_cons, ih2]
        omega

/-- Claim C1 amended: for every metric, base collection, geometry with at
least 2 total vertices and `targetCount ≥ 1`, the redistribution returns
exactly `targetCount` features — with no internal clamp at
`MAX_ADJUSTED_STOPS` (that clamp lives in the caller,
`adjustStopsByPercentage`); `targetCount = 0` yields the empty
collection. -/
theorem c1_amended_feature_count
    (haversineDistanceMeters : Coord → Coord → ℚ)
    (base : FeatureCollection) (g : Geometry) (targetCount : ℤ)
    (h1 : 1 ≤ targetCount) (hg : 2 ≤ totalVertexCount g) :
    ((buildAdjustedStopCollection haversineDistanceMeters base g
        targetCount).features.length = targetCount.toNat) ∧
    buildAdjustedStopCollection haversineDistanceMeters base g 0 =
      ⟨[]⟩ := by
  have hline := exists_nonempty_line_of_vertices hg
  constructor
  · have hcount : ¬targetCount.toNat = 0 := by omega
    simp only [buildAdjustedStopCollection]
    rw [if_neg hcount]
    set bf := base.features.filter (fun f => f.geom.isPoint) with hbf
    by_cases hb0 : bf.length = 0
    · rw [if_pos hb0]
      show ((generateStops (sampleCoordinatesAlongGeometry
          haversineDistanceMeters g ((targetCount.toNat : ℕ) : ℤ)) 0).take
          targetCount.toNat).length = targetCount.toNat
      rw [List.length_take, generateStops_length,
        sampleCoordinatesAlongGeometry_length haversineDistanceMeters g _
          hline]
      simp
    · rw [if_neg hb0]
      by_cases hble : targetCount.toNat ≤ bf.length
      · rw [if_pos hble]
        exact selectEvenlySpacedStops_length bf _ hble
      · rw [if_neg hble]
        by_cases hb1 : bf.length < 2
        · rw [if_pos hb1]
          show ((bf ++ generateStops (sampleCoordinatesAlongGeometry
              haversineDistanceMeters g
              ((targetCount.toNat - bf.length : ℕ) : ℤ)) bf.length).take
              targetCount.toNat).length = targetCount.toNat
          rw [List.length_take, List.length_append, generateStops_length,
            sampleCoordinatesAlongGeometry_length haversineDistanceMeters g _
              hline]
          simp only [Int.toNat_natCast]
          omega
        · rw [if_neg hb1]
          set I := interleaveStops bf.length bf.tail
            (gapSegments haversineDistanceMeters bf)
            (computeAllocations (gapSegments haversineDistanceMeters bf)
              (targetCount.toNat - bf.length)) 0 with hI
          obtain ⟨hgen0, hlen⟩ := interleaveStops_spec bf.length bf.tail
            (gapSegments haversineDistanceMeters bf)
            (computeAllocations (gapSegments haversineDistanceMeters bf)
              (targetCount.toNat - bf.length)) 0
          rw [← hI] at hgen0 hlen
          by_cases hfb : I.2 < targetCount.toNat - bf.length
          · rw [if_pos hfb]
            have hsl : (sampleCoordinatesAlongGeometry haversineDistanceMeters
                g ((targetCount.toNat - bf.length - I.2 : ℕ) : ℤ)).length =
                targetCount.toNat - bf.length - I.2 := by
              rw [sampleCoordinatesAlongGeometry_length haversineDistanceMeters
                g _ hline, Int.toNat_natCast]
            show ((bf.take 1 ++ I.1 ++ generateStops
                ((sampleCoordinatesAlongGeometry haversineDistanceMeters g
                  ((targetCount.toNat - bf.length - I.2 : ℕ) : ℤ)).take
                  (targetCount.toNat - bf.length - I.2))
                (bf.length + I.2)).take targetCount.toNat).length =
              targetCount.toNat
            simp only [List.length_take, List.length_append,
              generateStops_length, hsl, hlen, List.length_tail]
            omega
          · rw [if_neg hfb]
            show ((bf.take 1 ++ I.1 ++ []).take targetCount.toNat).length =
              targetCount.toNat
            rw [List.length_take, List.length_append, List.length_append,
              List.length_nil, List.length_take, hlen, List.length_tail]
            omega
  · rfl

/-- A valid 2-vertex LineString between distinct points, used in the C1
counterexample. -/
def c1Geometry : Geometry :=
  Geometry.lineString [(2, 3), (4, 5)]

/-- Counterexample to claim C1 as stated: with a valid geometry of 2 total
vertices, an empty base collection and `targetCount = 401`, the
redistribution returns 401 features, not `min 401 MAX_ADJUSTED_STOPS =
400` — `buildAdjustedStopCollection` never clamps `targetCount` at 400. -/
theorem c1_counterexample :
    (buildAdjustedStopCollection flatMetric ⟨[]⟩ c1Geometry 401).features.length
      = 401 ∧
    min 401 MAX_ADJUSTED_STOPS = 400 := by
  have hline : ∃ line ∈ linesOf c1Geometry, line ≠ [] := by
    refine ⟨[(2, 3), (4, 5)], ?_, by simp⟩
    simp [c1Geometry, linesOf]
  constructor
  · simp only [buildAdjustedStopCollection]
    rw [if_neg (by decide), if_pos (by decide)]
    show ((generateStops (sampleCoordinatesAlongGeometry flatMetric
        c1Geometry ((((401 : ℤ)).toNat : ℕ) : ℤ)) 0).take
        (401 : ℤ).toNat).length = 401
    rw [List.length_take, generateStops_length,
      sampleCoordinatesAlongGeometry_length flatMetric c1Geometry _ hline]
    decide
  · decide

/-- Witness for the amended C1 at a 2-vertex LineString and
`targetCount = 2`. -/
theorem c1_witness :
    (1 : ℤ) ≤ 2 ∧
    2 ≤ totalVertexCount (Geometry.lineString [(2, 3), (4, 5)]) ∧
    (((buildAdjustedStopCollection flatMetric ⟨[]⟩
        (Geometry.lineString [(2, 3), (4, 5)]) 2).features.length =
        (2 : ℤ).toNat) ∧
      buildAdjustedStopCollection flatMetric ⟨[]⟩
        (Geometry.lineString [(2, 3), (4, 5)]) 0 = ⟨[]⟩) :=
  ⟨by norm_num, by decide,
    c1_amended_feature_count flatMetric ⟨[]⟩
      (Geometry.lineString [(2, 3), (4, 5)]) 2 (by norm_num) (by decide)⟩

/-- Helper: the derived current adjusted count is at least 1. -/
theorem one_le_currentAdjustedCountOf (scenario : StopScenario) (b : ℕ) :
    1 ≤ currentAdjustedCountOf scenario b := by
  unfold currentAdjustedCountOf
  split_ifs <;> omega

/-- Helper: `Math.round` respects integer upper bounds. -/
theorem jsRound_le_int {q : ℚ} {m : ℤ} (h : q ≤ (m : ℚ)) : jsRound q ≤ m := by
  have := jsRound_mono h
  rwa [jsRound_intCast] at this

/-- Helper: `Math.round` respects integer lower bounds. -/
theorem int_le_jsRound {q : ℚ} {m : ℤ} (h : (m : ℚ) ≤ q) : m ≤ jsRound q := by
  have := jsRound_mono h
  rwa [jsRound_intCast] at this

/-- Helper: the nudge keeps the target in `[1, MAX_ADJUSTED_STOPS]` and
moves it off the current adjusted count except at the boundaries. -/
theorem nudgeTarget_spec (current : ℕ) (change : ℚ) (t : ℤ)
    (h1 : 1 ≤ t) (h2 : t ≤ (MAX_ADJUSTED_STOPS : ℤ))
    (hch : 0 < change ∨ change < 0) :
    1 ≤ nudgeTarget current change t ∧
    nudgeTarget current change t ≤ (MAX_ADJUSTED_STOPS : ℤ) ∧
    (nudgeTarget current change t ≠ (current : ℤ) ∨ current = 1 ∨
      current = MAX_ADJUSTED_STOPS) := by
  have h400 : ((MAX_ADJUSTED_STOPS : ℕ) : ℤ) = 400 := rfl
  have h400n : MAX_ADJUSTED_STOPS = 400 := rfl
  unfold nudgeTarget
  by_cases he : t = (current : ℤ)
  · rw [if_pos he]
    rcases hch with hpos | hneg
    · by_cases hlt : t < (MAX_ADJUSTED_STOPS : ℤ)
      · rw [if_pos ⟨hpos, hlt⟩]
        exact ⟨by omega, by omega, Or.inl (by omega)⟩
      · rw [if_neg (by tauto), if_neg (by rintro ⟨hc, -⟩; linarith)]
        refine ⟨h1, h2, Or.inr (Or.inr ?_)⟩
        omega
    · rw [if_neg (by rintro ⟨hc, -⟩; linarith)]
      by_cases h1t : 1 < t
      · rw [if_pos ⟨hneg, h1t⟩]
        exact ⟨by omega, by omega, Or.inl (by omega)⟩
      · rw [if_neg (by tauto)]
        refine ⟨h1, h2, Or.inr (Or.inl ?_)⟩
        omega
  · rw [if_neg he]
    exact ⟨h1, h2, Or.inl he⟩

/-- Helper: the bounded scale factor times the base count lies in
`[1, MAX_ADJUSTED_STOPS]`. -/
theorem boundedFactor_mul {b : ℕ} (hb : 0 < b) (p : ℚ) :
    (1 : ℚ) ≤ (b : ℚ) *
        min (max p (1 / (b : ℚ))) ((MAX_ADJUSTED_STOPS : ℚ) / (b : ℚ)) ∧
    (b : ℚ) * min (max p (1 / (b : ℚ)))
        ((MAX_ADJUSTED_STOPS : ℚ) / (b : ℚ)) ≤ (MAX_ADJUSTED_STOPS : ℚ) := by
  have hbq : (0 : ℚ) < (b : ℚ) := by exact_mod_cast hb
  have hM : (1 : ℚ) ≤ (MAX_ADJUSTED_STOPS : ℚ) := by
    norm_num [MAX_ADJUSTED_STOPS]
  have hlow : 1 / (b : ℚ) ≤
      min (max p (1 / (b : ℚ))) ((MAX_ADJUSTED_STOPS : ℚ) / (b : ℚ)) := by
    apply le_min (le_max_right _ _)
    exact (div_le_div_right hbq).mpr hM
  have hhigh : min (max p (1 / (b : ℚ)))
      ((MAX_ADJUSTED_STOPS : ℚ) / (b : ℚ)) ≤
      (MAX_ADJUSTED_STOPS : ℚ) / (b : ℚ) := min_le_right _ _
  constructor
  · have := mul_le_mul_of_nonneg_left hlow (le_of_lt hbq)
    rwa [mul_one_div, div_self (ne_of_gt hbq)] at this
  · have := mul_le_mul_of_nonneg_left hhigh (le_of_lt hbq)
    rwa [mul_div_cancel₀ _ (ne_of_gt hbq)] at this

/-- Helper: contract of the `baseCount > 0` branch of the adjustment. -/
theorem adjustTargetWithBase_spec (b ca : ℕ) (f0 change : ℚ)
    (hb : 0 < b) (hca : 1 ≤ ca) (hch : 0 < change ∨ change < 0) :
    (1 ≤ (adjustTargetWithBase b ca f0 change).1 ∧
      (adjustTargetWithBase b ca f0 change).1 ≤ (MAX_ADJUSTED_STOPS : ℤ)) ∧
    (adjustTargetWithBase b ca f0 change).2 =
      ((adjustTargetWithBase b ca f0 change).1 : ℚ) / (b : ℚ) ∧
    ((adjustTargetWithBase b ca f0 change).1 ≠ (ca : ℤ) ∨ ca = 1 ∨
      ca = MAX_ADJUSTED_STOPS) := by
  obtain ⟨hl, hu⟩ := boundedFactor_mul hb
    ((if f0 ≠ 0 then f0
      else if (ca : ℚ) / (b : ℚ) ≠ 0 then (ca : ℚ) / (b : ℚ) else 1) *
      (1 + change))
  unfold adjustTargetWithBase
  dsimp only
  have hjl : (1 : ℤ) ≤ jsRound ((b : ℚ) *
      min (max ((if f0 ≠ 0 then f0
        else if (ca : ℚ) / (b : ℚ) ≠ 0 then (ca : ℚ) / (b : ℚ) else 1) *
        (1 + change)) (1 / (b : ℚ)))
        ((MAX_ADJUSTED_STOPS : ℚ) / (b : ℚ))) := by
    apply int_le_jsRound
    push_cast
    exact hl
  have hju : jsRound ((b : ℚ) *
      min (max ((if f0 ≠ 0 then f0
        else if (ca : ℚ) / (b : ℚ) ≠ 0 then (ca : ℚ) / (b : ℚ) else 1) *
        (1 + change)) (1 / (b : ℚ)))
        ((MAX_ADJUSTED_STOPS : ℚ) / (b : ℚ))) ≤
      ((MAX_ADJUSTED_STOPS : ℕ) : ℤ) := by
    apply jsRound_le_int
    push_cast
    exact hu
  obtain ⟨hn1, hn2, hne⟩ := nudgeTarget_spec ca change
    (max 1 (jsRound ((b : ℚ) *
      min (max ((if f0 ≠ 0 then f0
        else if (ca : ℚ) / (b : ℚ) ≠ 0 then (ca : ℚ) / (b : ℚ) else 1) *
        (1 + change)) (1 / (b : ℚ)))
        ((MAX_ADJUSTED_STOPS : ℚ) / (b : ℚ)))))
    (le_max_left _ _) (by omega) hch
  exact ⟨⟨hn1, hn2⟩, rfl, hne⟩

/-- Helper: contract of the `baseCount = 0` branch of the adjustment. -/
theorem adjustTargetNoBase_spec (ca : ℕ) (f0 change : ℚ)
    (hca : 1 ≤ ca) (hch : 0 < change ∨ change < 0) :
    (1 ≤ (adjustTargetNoBase ca f0 change).1 ∧
      (adjustTargetNoBase ca f0 change).1 ≤ (MAX_ADJUSTED_STOPS : ℤ)) ∧
    ((adjustTargetNoBase ca f0 change).1 ≠ (ca : ℤ) ∨ ca = 1 ∨
      ca = MAX_ADJUSTED_STOPS) := by
  have h400 : ((MAX_ADJUSTED_STOPS : ℕ) : ℤ) = 400 := rfl
  unfold adjustTargetNoBase
  dsimp only
  obtain ⟨hn1, hn2, hne⟩ := nudgeTarget_spec ca change
    (max 1 (min ((MAX_ADJUSTED_STOPS : ℕ) : ℤ)
      (if jsRound ((ca : ℚ) * (1 + change)) = 0 then 1
       else jsRound ((ca : ℚ) * (1 + change)))))
    (le_max_left _ _) (by omega) hch
  exact ⟨⟨hn1, hn2⟩, hne⟩

/-- Claim C7: after a ±25% stop adjustment with a selected geometry, the
published adjusted count lies in `[1, MAX_ADJUSTED_STOPS]`; with a
positive base count the published factor equals `adjustedCount /
baseCount` and lies in `[1/baseCount, MAX_ADJUSTED_STOPS/baseCount]`; and
the adjusted count differs from the previous one except at the
boundaries 1 and `MAX_ADJUSTED_STOPS`. -/
theorem c7_adjust_invariants
    (haversineDistanceMeters : Coord → Coord → ℚ) (g : Geometry)
    (baseCollection : FeatureCollection) (currentScenario : StopScenario)
    (selectedRouteLength change : ℚ) (s' : StopScenario)
    (coll : FeatureCollection)
    (hchange : change = 1 / 4 ∨ change = -(1 / 4))
    (h : adjustStopsByPercentage haversineDistanceMeters (some g)
        baseCollection currentScenario selectedRouteLength change =
      some (s', coll)) :
    (1 ≤ s'.adjustedCount ∧ s'.adjustedCount ≤ MAX_ADJUSTED_STOPS) ∧
    (0 < pointCount baseCollection →
      s'.factor = (s'.adjustedCount : ℚ) / (pointCount baseCollection : ℚ) ∧
      1 / (pointCount baseCollection : ℚ) ≤ s'.factor ∧
      s'.factor ≤
        (MAX_ADJUSTED_STOPS : ℚ) / (pointCount baseCollection : ℚ)) ∧
    (s'.adjustedCount ≠
        currentAdjustedCountOf currentScenario (pointCount baseCollection) ∨
      currentAdjustedCountOf currentScenario (pointCount baseCollection) = 1 ∨
      currentAdjustedCountOf currentScenario (pointCount baseCollection) =
        MAX_ADJUSTED_STOPS) := by
  have hch : 0 < change ∨ change < 0 := by
    rcases hchange with hc | hc
    · left; rw [hc]; norm_num
    · right; rw [hc]; norm_num
  have hca := one_le_currentAdjustedCountOf currentScenario
    (pointCount baseCollection)
  have h400 : ((MAX_ADJUSTED_STOPS : ℕ) : ℤ) = 400 := rfl
  have h400n : MAX_ADJUSTED_STOPS = 400 := rfl
  simp only [adjustStopsByPercentage] at h
  by_cases hb : 0 < pointCount baseCollection
  · rw [if_pos hb] at h
    obtain ⟨⟨ht1, ht2⟩, hfac, hne⟩ := adjustTargetWithBase_spec
      (pointCount baseCollection)
      (currentAdjustedCountOf currentScenario (pointCount baseCollection))
      currentScenario.factor change hb hca hch
    set T := (adjustTargetWithBase (pointCount baseCollection)
      (currentAdjustedCountOf currentScenario (pointCount baseCollection))
      currentScenario.factor change).1 with hT
    have hTT : max 1 (min ((MAX_ADJUSTED_STOPS : ℕ) : ℤ) T) = T := by omega
    rw [hTT, if_neg (by omega)] at h
    rw [Option.some.injEq, Prod.mk.injEq] at h
    obtain ⟨hs', -⟩ := h
    have hadj : s'.adjustedCount = T.toNat := by rw [← hs']
    have hfac' : s'.factor = (adjustTargetWithBase (pointCount baseCollection)
        (currentAdjustedCountOf currentScenario (pointCount baseCollection))
        currentScenario.factor change).2 := by rw [← hs']
    have hbq : (0 : ℚ) < (pointCount baseCollection : ℚ) := by
      exact_mod_cast hb
    have hcast : ((T.toNat : ℕ) : ℚ) = (T : ℚ) := by
      have := Int.toNat_of_nonneg (by omega : (0 : ℤ) ≤ T)
      exact_mod_cast congrArg (Int.cast : ℤ → ℚ) this
    refine ⟨⟨?_, ?_⟩, ?_, ?_⟩
    · rw [hadj]; omega
    · rw [hadj]; omega
    · intro _
      refine ⟨?_, ?_, ?_⟩
      · rw [hfac', hfac, hadj, hcast]
      · rw [hfac', hfac]
        apply (div_le_div_right hbq).mpr
        calc (1 : ℚ) = ((1 : ℤ) : ℚ) := by norm_num
        _ ≤ (T : ℚ) := by exact_mod_cast ht1
      · rw [hfac', hfac]
        apply (div_le_div_right hbq).mpr
        calc (T : ℚ) ≤ (((MAX_ADJUSTED_STOPS : ℕ) : ℤ) : ℚ) := by
              exact_mod_cast ht2
        _ = (MAX_ADJUSTED_STOPS : ℚ) := by push_cast; ring
    · rcases hne with hne | hne | hne
      · left; rw [hadj]; omega
      · right; left; exact hne
      · right; right; exact hne
  · rw [if_neg hb] at h
    obtain ⟨⟨ht1, ht2⟩, hne⟩ := adjustTargetNoBase_spec
      (currentAdjustedCountOf currentScenario (pointCount baseCollection))
      currentScenario.factor change hca hch
    set T := (adjustTargetNoBase
      (currentAdjustedCountOf currentScenario (pointCount baseCollection))
      currentScenario.factor change).1 with hT
    have hTT : max 1 (min ((MAX_ADJUSTED_STOPS : ℕ) : ℤ) T) = T := by omega
    rw [hTT, if_neg (by omega)] at h
    rw [Option.some.injEq, Prod.mk.injEq] at h
    obtain ⟨hs', -⟩ := h
    have hadj : s'.adjustedCount = T.toNat := by rw [← hs']
    refine ⟨⟨?_, ?_⟩, fun h0 => absurd h0 hb, ?_⟩
    · rw [hadj]; omega
    · rw [hadj]; omega
    · rcases hne with hne | hne | hne
      · left; rw [hadj]; omega
      · right; left; exact hne
      · right; right; exact hne

/-- Witness for C7: a +25% adjustment from the default scenario with no
base stops and a degenerate geometry publishes counts and factor meeting
the invariants. -/
theorem c7_witness :
    ((1 : ℚ) / 4 = 1 / 4 ∨ (1 : ℚ) / 4 = -(1 / 4)) ∧
    ∃ s' coll,
      adjustStopsByPercentage flatMetric (some Geometry.other) ⟨[]⟩
          DEFAULT_STOP_SCENARIO 0 (1 / 4) = some (s', coll) ∧
      ((1 ≤ s'.adjustedCount ∧ s'.adjustedCount ≤ MAX_ADJUSTED_STOPS) ∧
        (0 < pointCount (⟨[]⟩ : FeatureCollection) →
          s'.factor = (s'.adjustedCount : ℚ) /
            (pointCount (⟨[]⟩ : FeatureCollection) : ℚ) ∧
          1 / (pointCount (⟨[]⟩ : FeatureCollection) : ℚ) ≤ s'.factor ∧
          s'.factor ≤ (MAX_ADJUSTED_STOPS : ℚ) /
            (pointCount (⟨[]⟩ : FeatureCollection) : ℚ)) ∧
        (s'.adjustedCount ≠ currentAdjustedCountOf DEFAULT_STOP_SCENARIO
            (pointCount (⟨[]⟩ : FeatureCollection)) ∨
          currentAdjustedCountOf DEFAULT_STOP_SCENARIO
            (pointCount (⟨[]⟩ : FeatureCollection)) = 1 ∨
          currentAdjustedCountOf DEFAULT_STOP_SCENARIO
            (pointCount (⟨[]⟩ : FeatureCollection)) = MAX_ADJUSTED_STOPS)) := by
  refine ⟨Or.inl rfl, ?_⟩
  rcases hres : adjustStopsByPercentage flatMetric (some Geometry.other) ⟨[]⟩
      DEFAULT_STOP_SCENARIO 0 (1 / 4) with _ | p
  · exfalso
    revert hres
    simp only [adjustStopsByPercentage]
    rw [if_neg (by norm_num [adjustTargetNoBase, nudgeTarget, jsRound,
      currentAdjustedCountOf, DEFAULT_STOP_SCENARIO, pointCount,
      MAX_ADJUSTED_STOPS])]
    simp
  · exact ⟨p.1, p.2, rfl,
      c7_adjust_invariants flatMetric Geometry.other ⟨[]⟩
        DEFAULT_STOP_SCENARIO 0 (1 / 4) p.1 p.2 (Or.inl rfl)
        (hres.trans rfl)⟩

/-- Helper: synthetic stops are Point features. -/
theorem generateStops_isPoint (coords : List Coord) :
    ∀ k, ∀ f ∈ generateStops coords k, f.geom.isPoint = true := by
  induction coords with
  | nil => intro k f hf; simp [generateStops] at hf
  | cons c rest ih =>
      intro k f hf
      rcases List.mem_cons.mp hf with h | h
      · subst h; rfl
      · exact ih (k + 1) f h

/-- Helper: gap-generated stops are Point features. -/
theorem gapNewStops_isPoint (baseCount : ℕ) (segments : List Segment)
    (allocations : List ℤ) (generated : ℕ) :
    ∀ f ∈ gapNewStops baseCount segments allocations generated,
      f.geom.isPoint = true := by
  intro f hf
  rcases hhead : segments.head? with _ | seg
  · simp [gapNewStops, hhead] at hf
  · simp only [gapNewStops, hhead] at hf
    by_cases hpos : 0 < allocations.headD 0
    · rw [if_pos hpos] at hf
      unfold stopsInSegment at hf
      obtain ⟨k, -, rfl⟩ := List.mem_map.mp hf
      rfl
    · rw [if_neg hpos] at hf; simp at hf

/-- Helper: every feature the interleaving loop emits is either one of the
input base features or a synthetic Point. -/
theorem interleaveStops_mem (baseCount : ℕ) :
    ∀ (fs : List Feature) (segs : List Segment) (allocs : List ℤ) (gen : ℕ),
      ∀ f ∈ (interleaveStops baseCount fs segs allocs gen).1,
        f ∈ fs ∨ f.geom.isPoint = true := by
  intro fs
  induction fs with
  | nil => intro segs allocs gen f hf; simp [interleaveStops] at hf
  | cons x rest ih =>
      intro segs allocs gen f hf
      simp only [interleaveStops] at hf
      rcases List.mem_append.mp hf with h | h
      · exact Or.inr (gapNewStops_isPoint baseCount segs allocs gen f h)
      · rcases List.mem_cons.mp h with h | h
        · exact Or.inl (h ▸ List.mem_cons_self x rest)
        · rcases ih segs.tail allocs.tail _ f h with hmem | hpt
          · exact Or.inl (List.mem_cons_of_mem x hmem)
          · exact Or.inr hpt

/-- Helper: subsampling selects only input features. -/
theorem selectEvenlySpacedStops_subset {α : Type} (features : List α)
    (t : ℕ) : ∀ f ∈ selectEvenlySpacedStops features t, f ∈ features := by
  intro f hf
  rw [selectEvenlySpacedStops_def] at hf
  split at hf
  · simp at hf
  · split at hf
    · exact hf
    · split at hf
      · exact List.take_subset 1 features hf
      · obtain ⟨i, -, hget⟩ := List.mem_filterMap.mp hf
        exact List.get?_mem hget

/-- Helper: with a geometry present, the stop adjustment always produces a
result (the rounded target is clamped to at least 1, so the final
non-positive guard never fires). -/
theorem adjustStopsByPercentage_isSome
    (haversineDistanceMeters : Coord → Coord → ℚ) (g : Geometry)
    (baseCollection : FeatureCollection) (currentScenario : StopScenario)
    (selectedRouteLength change : ℚ) :
    ∃ p, adjustStopsByPercentage haversineDistanceMeters (some g)
      baseCollection currentScenario selectedRouteLength change = some p := by
  simp only [adjustStopsByPercentage]
  split
  · split
    · next hcond => exfalso; omega
    · exact ⟨_, rfl⟩
  · split
    · next hcond => exfalso; omega
    · exact ⟨_, rfl⟩

/-- Claim C10: only Point features count as base stops — the
redistribution ignores non-Point features entirely (its output depends
only on the Point-filtered base list and contains only Point features),
and the stop-adjustment control publishes a `baseCount` computed with the
same Point filter. -/
theorem c10_point_filter
    (haversineDistanceMeters : Coord → Coord → ℚ)
    (fs : List Feature) (g : Geometry) (targetCount : ℤ) :
    buildAdjustedStopCollection haversineDistanceMeters ⟨fs⟩ g targetCount =
      buildAdjustedStopCollection haversineDistanceMeters
        ⟨fs.filter (fun f => f.geom.isPoint)⟩ g targetCount ∧
    (∀ f ∈ (buildAdjustedStopCollection haversineDistanceMeters ⟨fs⟩ g
        targetCount).features, f.geom.isPoint = true) ∧
    ∀ (scenario : StopScenario) (len change : ℚ) (s' : StopScenario)
      (coll : FeatureCollection),
      adjustStopsByPercentage haversineDistanceMeters (some g) ⟨fs⟩ scenario
          len change = some (s', coll) →
      s'.baseCount = (fs.filter (fun f => f.geom.isPoint)).length := by
  have hff : (fs.filter (fun f => f.geom.isPoint)).filter
      (fun f => f.geom.isPoint) = fs.filter (fun f => f.geom.isPoint) := by
    simp [List.filter_filter]
  refine ⟨?_, ?_, ?_⟩
  · simp only [buildAdjustedStopCollection]
    rw [hff]
  · intro f hf
    simp only [buildAdjustedStopCollection] at hf
    split at hf
    · simp at hf
    · split at hf
      · exact generateStops_isPoint _ _ f (List.take_subset _ _ hf)
      · split at hf
        · have := selectEvenlySpacedStops_subset _ _ f hf
          exact (List.mem_filter.mp this).2
        · split at hf
          · rcases List.mem_append.mp (List.take_subset _ _ hf) with h | h
            · exact (List.mem_filter.mp h).2
            · exact generateStops_isPoint _ _ f h
          · rcases List.mem_append.mp (List.take_subset _ _ hf) with h | h
            · rcases List.mem_append.mp h with h2 | h2
              · have := List.take_subset 1 _ h2
                exact (List.mem_filter.mp this).2
              · rcases interleaveStops_mem _ _ _ _ _ f h2 with h3 | h3
                · have := List.tail_subset _ h3
                  exact (List.mem_filter.mp this).2
                · exact h3
            · split at h
              · exact generateStops_isPoint _ _ f h
              · simp at h
  · intro scenario len change s' coll h
    simp only [adjustStopsByPercentage] at h
    split at h <;>
      [skip; skip] <;>
      · rw [if_neg (by omega)] at h
        rw [Option.some.injEq, Prod.mk.injEq] at h
        obtain ⟨hs', -⟩ := h
        rw [← hs']
        rfl

/-- Witness for C10: a base collection with one Point and one non-Point
feature yields only Point output features, and the published base count
counts only the Point. -/
theorem c10_witness :
    (∀ f ∈ (buildAdjustedStopCollection flatMetric
        ⟨[samplePoint 1 "p", blankFeature]⟩ Geometry.other 2).features,
      f.geom.isPoint = true) ∧
    ∃ s' coll,
      adjustStopsByPercentage flatMetric (some Geometry.other)
          ⟨[samplePoint 1 "p", blankFeature]⟩ DEFAULT_STOP_SCENARIO 0
          (1 / 4) = some (s', coll) ∧
      s'.baseCount = ([samplePoint 1 "p", blankFeature].filter
        (fun f => f.geom.isPoint)).length := by
  constructor
  · exact (c10_point_filter flatMetric [samplePoint 1 "p", blankFeature]
      Geometry.other 2).2.1
  · obtain ⟨p, hp⟩ := adjustStopsByPercentage_isSome flatMetric
      Geometry.other ⟨[samplePoint 1 "p", blankFeature]⟩
      DEFAULT_STOP_SCENARIO 0 (1 / 4)
    exact ⟨p.1, p.2, hp.trans rfl,
      (c10_point_filter flatMetric [samplePoint 1 "p", blankFeature]
        Geometry.other 2).2.2 DEFAULT_STOP_SCENARIO 0 (1 / 4) p.1 p.2
        (hp.trans rfl)⟩

end BostonBuses
